import Mathlib

/-!
# PPD School Supply Ordering: the synchronisation core of `config.js`

A shallow embedding of `src/config.js`: the Local Store (the browser's
`localStorage` keys `users` and `syncQueue`), the Remote Gateway (`fetch` and
`fetchWithTimeout`), the background sync queue (`addToSyncQueue`,
`processSyncQueue`) and the data access operations.

Modelling decisions, all visible in the definitions below:

* a `localStorage` value is a `Cell`: the key is absent, holds the empty text,
  holds text on which `JSON.parse` throws, or holds the JSON text of a list of
  records; `JSON.stringify` followed by `setItem` yields `Cell.records`;
* stored records, queue entries and login answers are typed as the data model
  describes them; a property the code allows to be missing is an `Option`;
* the network is an input: every operation that awaits a fetch takes the way
  that fetch settles as an argument, and the request it issued is appended to
  the `trace` of the world, together with every `getItem` and `setItem`;
* `processSyncQueue` is asynchronous and observable between its awaits, so it is
  a small-step machine: a pass that awaits a fetch is parked as a `Frame`, and
  `settle` resumes the oldest parked pass with the outcome of its fetch;
* presentation hooks (`showToast`, `showLoading`, `hideLoading`, `console`) have
  no effect on the Local Store, the gateway or the returned values and are left
  out.
-/

namespace PPD

/-! ## Data model -/

/-- Values produced by `JSON.parse` and returned by the operations. Numbers are
never computed on by this file, integers stand for them. -/
inductive Json where
  | null
  | bool (b : Bool)
  | num (n : Int)
  | str (s : String)
  | arr (items : List Json)
  | obj (fields : List (String × Json))

/-- The configuration object `GOOGLE_APPS_SCRIPT_CONFIG`. -/
structure Config where
  webAppUrl : String

/-- Source lines 17-19: `isConfigured`. -/
def isConfigured (cfg : Config) : Bool :=
  cfg.webAppUrl != "YOUR_WEB_APP_URL_HERE"

/-- An account record of the `users` collection: `{name, email, password, hint}`
(registration) or `{name, email, password}` (cached by a remote login). -/
structure Account where
  name : String
  email : String
  password : String
  hint : Option String

/-- An object of the sync queue, also the argument of `addToSyncQueue`. A field
that is `none` is a property the object does not have. -/
structure Entry where
  action : String
  email : Option String
  newPassword : Option String
  payload : Option Json
  attempts : Option Nat
  ts : Option Nat

/-- A request handed to `fetch`: the endpoint, the method, the query parameters
(before `encodeURIComponent`), the `timestamp` parameter when there is one, the
JSON body of a POST, and the deadline in milliseconds when the request goes
through `fetchWithTimeout`. -/
structure Request where
  url : String
  method : String
  query : List (String × String)
  timestamp : Option Nat
  body : Option Json
  deadline : Option Nat

/-- An HTTP response as the code reads it: the status, the outcome of reading
the body (`response.text()` resolves with the text or rejects with a message),
and what `JSON.parse` makes of that text (`none` when it throws). -/
structure Response where
  status : Nat
  text : Except String String
  json : Option Json

/-- The property `response.ok`: a 2xx status. -/
def Response.ok (r : Response) : Bool :=
  decide (200 ≤ r.status) && decide (r.status ≤ 299)

/-- How a plain `fetch` settles: it resolves with a response of any status, or
it rejects with an error that carries a message. -/
inductive Settled where
  | response (r : Response)
  | rejected (message : String)

/-- How the race of `fetchWithTimeout` ends: the fetch settles before the
deadline, or the timer fires first and aborts it. -/
inductive Raced where
  | first (s : Settled)
  | aborted

/-- Source lines 32-44: `fetchWithTimeout`, as a function of how the race ends.
A response of any status is returned; an abort is rethrown as
`Request timeout`; any other rejection is rethrown unchanged. -/
def fetchWithTimeout : Raced → Except String Response
  | .first (.response r) => .ok r
  | .first (.rejected message) => .error message
  | .aborted => .error "Request timeout"

/-- A plain `await fetch(...)`. -/
def fetch : Settled → Except String Response
  | .response r => .ok r
  | .rejected message => .error message

/-- A value stored under a `localStorage` key. -/
inductive Cell (α : Type) where
  | absent
  | blank
  | corrupt (text : String)
  | records (xs : List α)

/-- The expression `JSON.parse(localStorage.getItem(key) || '[]')`: `none` when
`JSON.parse` throws. -/
def Cell.read {α : Type} : Cell α → Option (List α)
  | .absent => some []
  | .blank => some []
  | .corrupt _ => none
  | .records xs => some xs

/-- Observable actions: Local Store accesses and Remote Gateway calls. -/
inductive Event where
  | getItem (key : String)
  | setItem (key : String)
  | fetch (req : Request)

/-- A drain pass parked at the `await` of line 104 or 109: its local array `q`,
its loop index `i` and the `item` it is delivering. -/
structure Frame where
  q : List Entry
  i : Nat
  item : Entry

/-- The state the operations act on: the two `localStorage` collections, the
flag `window._processingSyncQueue`, the parked drain passes, and the trace. -/
structure World where
  users : Cell Account
  syncQueue : Cell Entry
  processing : Bool
  frames : List Frame
  trace : List Event

/-- The gateway calls of a trace, oldest first. -/
def gatewayCalls (t : List Event) : List Request :=
  t.filterMap fun ev => match ev with
    | .fetch req => some req
    | _ => none

/-! ## Sync queue -/

/-- The request of line 103-104 for a `resetPassword` entry. A missing property
is encoded by `encodeURIComponent` as the text `undefined`. -/
def resetPasswordRequest (cfg : Config) (item : Entry) : Request :=
  { url := cfg.webAppUrl, method := "GET",
    query := [("action", "resetPassword"), ("email", item.email.getD "undefined"),
      ("newPassword", item.newPassword.getD "undefined")],
    timestamp := none, body := none, deadline := some 10000 }

/-- The request of line 109 for a `register` entry. -/
def registerEntryRequest (cfg : Config) (item : Entry) : Request :=
  { url := cfg.webAppUrl, method := "POST", query := [], timestamp := none,
    body := item.payload, deadline := some 10000 }

/-- Line 81: `Object.assign({ attempts: 0, ts: Date.now() }, item)`. The
properties of `item` are copied over the two defaults. -/
def withDefaults (now : Nat) (item : Entry) : Entry :=
  { item with
    attempts := some (item.attempts.getD 0)
    ts := some (item.ts.getD now) }

/-- Lines 99-134: the `for` loop of `processSyncQueue` from the point where
`i + 1` indices are left (the loop variable is `i`), run until the pass awaits
a fetch or ends. Ending persists `q` (line 129) and clears the flag (line 133). -/
def drainFrom (cfg : Config) : Nat → List Entry → World → World
  | 0, q, w =>
    { w with
      syncQueue := .records q
      processing := false
      trace := w.trace ++ [.setItem "syncQueue"] }
  | i + 1, q, w =>
    match q[i]? with
    | none =>
      -- item is undefined: the TypeError of line 102 is thrown again by line 118
      -- and reaches the outer catch of line 130; nothing is persisted
      { w with processing := false }
    | some item =>
      if item.action = "resetPassword" then
        { w with
          frames := w.frames ++ [⟨q, i, item⟩]
          trace := w.trace ++ [.fetch (resetPasswordRequest cfg item)] }
      else if item.action = "register" then
        { w with
          frames := w.frames ++ [⟨q, i, item⟩]
          trace := w.trace ++ [.fetch (registerEntryRequest cfg item)] }
      else
        drainFrom cfg i (q.eraseIdx i) w

/-- The oldest parked pass resumes with the outcome of its fetch: lines 105-106
or 110-111 when `fetchWithTimeout` returned, lines 117-126 when it threw; then
the loop goes on. -/
def settle (cfg : Config) (out : Raced) (w : World) : World :=
  match w.frames with
  | [] => w
  | f :: rest =>
    match fetchWithTimeout out with
    | .ok _ => drainFrom cfg f.i (f.q.eraseIdx f.i) { w with frames := rest }
    | .error _ =>
      let attempts := f.item.attempts.getD 0 + 1
      if 3 < attempts then
        drainFrom cfg f.i (f.q.eraseIdx f.i) { w with frames := rest }
      else
        drainFrom cfg f.i (f.q.set f.i { f.item with attempts := some attempts })
          { w with frames := rest }

/-- Source lines 91-135: a call of `processSyncQueue`, up to its first await. -/
def processSyncQueue (cfg : Config) (w : World) : World :=
  if w.processing then w
  else
    let w1 : World :=
      { w with processing := true, trace := w.trace ++ [.getItem "syncQueue"] }
    match w1.syncQueue.read with
    | none => { w1 with processing := false }
    | some q =>
      if q.length = 0 then { w1 with processing := false }
      else drainFrom cfg q.length q w1

/-- Lines 80-82 of `addToSyncQueue`: read the queue, push the entry, persist.
`none` when `JSON.parse` throws (the catch of line 86 then ends the call). -/
def enqueue (now : Nat) (item : Entry) (w : World) : Option World :=
  match w.syncQueue.read with
  | none => none
  | some q =>
    some { w with
      syncQueue := .records (q ++ [withDefaults now item])
      trace := w.trace ++ [.getItem "syncQueue", .setItem "syncQueue"] }

/-- Source lines 78-89: `addToSyncQueue`; `now` is the value of `Date.now()`. -/
def addToSyncQueue (cfg : Config) (now : Nat) (item : Entry) (w : World) : World :=
  match enqueue now item w with
  | none => { w with trace := w.trace ++ [.getItem "syncQueue"] }
  | some w1 => processSyncQueue cfg w1

/-- Resume the parked pass until nothing is parked, at most `fuel` times; the
fetch issued for the item at index `i` settles as `outcome i item`. -/
def settleAll (cfg : Config) (outcome : Nat → Entry → Raced) : Nat → World → World
  | 0, w => w
  | fuel + 1, w =>
    match w.frames with
    | [] => w
    | f :: _ => settleAll cfg outcome fuel (settle cfg (outcome f.i f.item) w)

/-- A whole drain pass with nothing interleaved: the call of `processSyncQueue`
and the resumptions of its awaits. A pass awaits at most once per entry. -/
def drainPass (cfg : Config) (outcome : Nat → Entry → Raced) (w : World) : World :=
  settleAll cfg outcome (w.syncQueue.read.getD []).length (processSyncQueue cfg w)

/-- The first `n` drain passes in a row; pass `k + 1` sees the outcomes
`outcomes k`. -/
def drainPasses (cfg : Config) (outcomes : Nat → Nat → Entry → Raced) : Nat → World → World
  | 0, w => w
  | k + 1, w => drainPass cfg (outcomes k) (drainPasses cfg outcomes k w)

/-! ## Accounts -/

/-- What an asynchronous operation hands to its caller: the value its promise
resolves with, or the error it rejects with. -/
inductive Completion where
  | returned (value : Json)
  | threw (error : String)

/-- The object literal with the properties `success` and `message`. -/
def reply (success : Bool) (message : String) : Json :=
  .obj [("success", .bool success), ("message", .str message)]

/-- ECMAScript white space and line terminators, the characters `trim` strips. -/
def isTrimmed (c : Char) : Bool :=
  c.toNat ∈ [0x09, 0x0A, 0x0B, 0x0C, 0x0D, 0x20, 0xA0, 0x1680, 0x2028, 0x2029,
    0x202F, 0x205F, 0x3000, 0xFEFF] || (decide (0x2000 ≤ c.toNat) && decide (c.toNat ≤ 0x200A))

/-- The method `String.prototype.trim`. -/
def trim (s : String) : String :=
  ⟨((s.data.dropWhile isTrimmed).reverse.dropWhile isTrimmed).reverse⟩

/-- The arguments of `registerUser`; an argument that is `none` was not passed. -/
structure Registration where
  name : String
  email : String
  password : String
  securityQuestion : Option String
  securityAnswer : Option String
  hint : Option String

/-- The request of lines 237-251. A missing or empty optional argument is sent
as the empty text. -/
def registerRequest (cfg : Config) (now : Nat) (a : Registration) : Request :=
  { url := cfg.webAppUrl, method := "GET",
    query := [("action", "register"), ("name", a.name), ("email", a.email),
      ("password", a.password), ("securityQuestion", a.securityQuestion.getD ""),
      ("securityAnswer", a.securityAnswer.getD ""), ("hint", a.hint.getD "")],
    timestamp := some now, body := none, deadline := some 8000 }

/-- Source lines 220-267: `registerUser`. `toLowerCase` is the string method of
that name, `now` the value of `Date.now()`, `mirror` the way the fetch of line
247 ends. Lines 222-231 run before the first await. -/
def registerUser (toLowerCase : String → String) (cfg : Config) (now : Nat)
    (a : Registration) (mirror : Raced) (w : World) : Completion × World :=
  let w1 : World := { w with trace := w.trace ++ [.getItem "users"] }
  match w1.users.read with
  | none => (.threw "SyntaxError", w1)
  | some users =>
    if users.any (fun u => toLowerCase u.email == toLowerCase a.email) then
      (.returned (reply false "Email sudah digunakan"), w1)
    else
      let w2 : World :=
        { w1 with
          users := .records (users ++ [⟨a.name, a.email, a.password, a.hint⟩])
          trace := w1.trace ++ [.setItem "users"] }
      if isConfigured cfg then
        let w3 : World := { w2 with trace := w2.trace ++ [.fetch (registerRequest cfg now a)] }
        match fetchWithTimeout mirror with
        | .ok _ => (.returned (reply true "Pendaftaran berjaya"), w3)
        | .error _ => (.returned (reply true "Pendaftaran berjaya"), w3)
      else (.returned (reply true "Pendaftaran berjaya"), w2)

/-- The parsed body of a login answer, `{success, message, user: {name, email}}`;
a property that is `none` is missing. -/
structure LoginAnswer where
  success : Bool
  message : Option String
  user : Option (String × String)

/-- The login answer as the value `loginUser` returns. -/
def LoginAnswer.toJson (r : LoginAnswer) : Json :=
  .obj ([("success", .bool r.success)]
    ++ (match r.message with
        | some m => [("message", .str m)]
        | none => [])
    ++ (match r.user with
        | some (name, email) => [("user", .obj [("name", .str name), ("email", .str email)])]
        | none => []))

/-- How the fetch of line 296 and `response.json()` of line 301 end: the fetch
rejects, the body is unreadable or not JSON, or the body parses. -/
inductive LoginFetch where
  | rejected (message : String)
  | unparseable (status : Nat)
  | parsed (status : Nat) (answer : LoginAnswer)

/-- The request of line 296. -/
def loginRequest (cfg : Config) (email password : String) : Request :=
  { url := cfg.webAppUrl, method := "GET",
    query := [("action", "login"), ("email", email), ("password", password)],
    timestamp := none, body := none, deadline := none }

/-- The object returned by line 318. -/
def invalidCredentials : Json := reply false "Email atau kata laluan salah"

/-- Source lines 270-319: `loginUser`. -/
def loginUser (toLowerCase : String → String) (cfg : Config) (email password : String)
    (remote : LoginFetch) (w : World) : Completion × World :=
  let checkEmail := toLowerCase (trim email)
  let checkPassword := trim password
  let w1 : World := { w with trace := w.trace ++ [.getItem "users"] }
  match w1.users.read with
  | none => (.threw "SyntaxError", w1)
  | some users =>
    match users.find? (fun u => toLowerCase u.email == checkEmail && u.password == checkPassword) with
    | some user =>
      (.returned (.obj [("success", .bool true), ("message", .str "Login berjaya"),
        ("user", .obj [("name", .str user.name), ("email", .str user.email)])]), w1)
    | none =>
      if isConfigured cfg then
        let w2 : World := { w1 with trace := w1.trace ++ [.fetch (loginRequest cfg email password)] }
        match remote with
        | .rejected _ => (.returned invalidCredentials, w2)
        | .unparseable _ => (.returned invalidCredentials, w2)
        | .parsed _ answer =>
          if answer.success then
            if users.any (fun u => toLowerCase u.email == checkEmail) then
              (.returned answer.toJson, w2)
            else
              match answer.user with
              | none =>
                -- reading `result.user.name` throws; line 312 catches, line 318 returns
                (.returned invalidCredentials, w2)
              | some (name, mail) =>
                (.returned answer.toJson,
                  { w2 with
                    users := .records (users ++ [⟨name, mail, password, none⟩])
                    trace := w2.trace ++ [.setItem "users"] })
          else (.returned answer.toJson, w2)
      else (.returned invalidCredentials, w1)

/-! ## Remote-only operations -/

/-- JavaScript truthiness of a parsed value. -/
def Json.truthy : Json → Bool
  | .null => false
  | .bool b => b
  | .num n => n != 0
  | .str s => s != ""
  | .arr _ => true
  | .obj _ => true

/-- A property read `value.key` for the keys this file reads (`success`,
`items`, `users`, `requests`): an error on `null`, the property of an object
(keys of a parsed object are distinct), undefined (`none`) otherwise. -/
def Json.prop (key : String) : Json → Except String (Option Json)
  | .null => .error "TypeError"
  | .obj fields => .ok (fields.lookup key)
  | _ => .ok none

/-- The call `response.json()`: the body is read, then parsed. -/
def Response.parsed (r : Response) : Option Json :=
  match r.text with
  | .ok _ => r.json
  | .error _ => none

/-- A GET request with query parameters and no deadline. -/
def queryRequest (cfg : Config) (query : List (String × String)) (timestamp : Option Nat) :
    Request :=
  { url := cfg.webAppUrl, method := "GET", query := query, timestamp := timestamp,
    body := none, deadline := none }

/-- A POST request in `no-cors` mode with a JSON body. -/
def postRequest (cfg : Config) (fields : List (String × Json)) : Request :=
  { url := cfg.webAppUrl, method := "POST", query := [], timestamp := none,
    body := some (.obj fields), deadline := none }

/-- The common body of `getItems`, `getUsers` and `getTeacherStockRequests`:
the list under `key` of a successful answer, `null` in every other case. -/
def listing (cfg : Config) (action key : String) (remote : Settled) (w : World) : Json × World :=
  if !isConfigured cfg then (.null, w)
  else
    let w1 : World :=
      { w with trace := w.trace ++ [.fetch (queryRequest cfg [("action", action)] none)] }
    match fetch remote with
    | .error _ => (.null, w1)
    | .ok response =>
      match response.parsed with
      | none => (.null, w1)
      | some result =>
        match result.prop "success" with
        | .error _ => (.null, w1)
        | .ok success =>
          if (success.map Json.truthy).getD false then
            match result.prop key with
            | .ok (some list) => (if list.truthy then list else .arr [], w1)
            | _ => (.arr [], w1)
          else (.null, w1)

/-- Source lines 323-349: `getItems`. -/
def getItems (cfg : Config) (remote : Settled) (w : World) : Json × World :=
  listing cfg "getItems" "items" remote w

/-- Source lines 474-500: `getTeacherStockRequests`. -/
def getTeacherStockRequests (cfg : Config) (remote : Settled) (w : World) : Json × World :=
  listing cfg "getTeacherStockRequests" "requests" remote w

/-- Source lines 547-574: `getUsers`. -/
def getUsers (cfg : Config) (remote : Settled) (w : World) : Json × World :=
  listing cfg "getUsers" "users" remote w

/-- Source lines 577-595: `getUserByEmail`; the flag `suppressLoading` only
concerns the loading overlay. -/
def getUserByEmail (cfg : Config) (email : String) (remote : Raced) (w : World) : Json × World :=
  if !isConfigured cfg then (.null, w)
  else
    let w1 : World :=
      { w with
        trace := w.trace ++ [.fetch
          { url := cfg.webAppUrl, method := "GET",
            query := [("action", "findUser"), ("email", email)],
            timestamp := none, body := none, deadline := some 8000 }] }
    match fetchWithTimeout remote with
    | .error _ => (.null, w1)
    | .ok response =>
      match response.parsed with
      | none => (.null, w1)
      | some result => (result, w1)

/-- The common body of `addItem`, `updateItem`, `requestStock`,
`updateRequestStatus` and `deleteUser`: a query-encoded call whose answer is
returned when it parses and replaced by a success object when it does not. -/
def queryCall (cfg : Config) (req : Request) (assumed : String) (remote : Settled)
    (w : World) : Json × World :=
  if !isConfigured cfg then (reply false "Configuration not set", w)
  else
    let w1 : World := { w with trace := w.trace ++ [.fetch req] }
    match fetch remote with
    | .error message => (reply false ("Failed to connect: " ++ message), w1)
    | .ok response =>
      match response.text with
      | .error message => (reply false ("Failed to connect: " ++ message), w1)
      | .ok _ =>
        match response.json with
        | some result => (result, w1)
        | none => (reply true assumed, w1)

/-- Source lines 352-390: `addItem`. -/
def addItem (cfg : Config) (now : Nat) (name stock : String) (remote : Settled) (w : World) :
    Json × World :=
  queryCall cfg
    (queryRequest cfg [("action", "addItem"), ("name", name), ("stock", stock)] (some now))
    "Barang berjaya ditambah" remote w

/-- Source lines 393-430: `updateItem`. -/
def updateItem (cfg : Config) (now : Nat) (name stock : String) (remote : Settled) (w : World) :
    Json × World :=
  queryCall cfg
    (queryRequest cfg [("action", "updateItem"), ("name", name), ("stock", stock)] (some now))
    "Stok berjaya dikemaskini" remote w

/-- Source lines 433-471: `requestStock`. -/
def requestStock (cfg : Config) (now : Nat) (teacherEmail teacherName item qty : String)
    (remote : Settled) (w : World) : Json × World :=
  queryCall cfg
    (queryRequest cfg [("action", "requestStock"), ("teacherEmail", teacherEmail),
      ("teacherName", teacherName), ("item", item), ("qty", qty)] (some now))
    "Request berjaya dihantar (no parse)" remote w

/-- Source lines 503-544: `updateRequestStatus`; `reason` defaults to the
empty text. -/
def updateRequestStatus (cfg : Config) (now : Nat) (email item status : String)
    (reason : Option String) (remote : Settled) (w : World) : Json × World :=
  queryCall cfg
    (queryRequest cfg [("action", "updateRequestStatus"), ("email", email), ("item", item),
      ("status", status), ("reason", reason.getD "")] (some now))
    "Status diupdate" remote w

/-- Source lines 660-696: `deleteUser`. -/
def deleteUser (cfg : Config) (now : Nat) (email : String) (remote : Settled) (w : World) :
    Json × World :=
  queryCall cfg (queryRequest cfg [("action", "deleteUser"), ("email", email)] (some now))
    "Pengguna berjaya dipadam" remote w

/-- The common body of `deleteOrder`, `deleteItem` and `deleteAllOrders`: an
opaque POST that reports success as soon as the fetch resolves. -/
def opaquePost (cfg : Config) (fields : List (String × Json)) (done : String)
    (remote : Settled) (w : World) : Json × World :=
  if !isConfigured cfg then (reply false "Configuration not set", w)
  else
    let w1 : World := { w with trace := w.trace ++ [.fetch (postRequest cfg fields)] }
    match fetch remote with
    | .error message => (reply false ("Failed to connect: " ++ message), w1)
    | .ok _ => (reply true done, w1)

/-- Source lines 598-627: `deleteOrder`. -/
def deleteOrder (cfg : Config) (email item date : String) (remote : Settled) (w : World) :
    Json × World :=
  opaquePost cfg [("action", .str "deleteOrder"), ("email", .str email), ("item", .str item),
    ("date", .str date)] "Order berjaya dipadamkan" remote w

/-- Source lines 630-657: `deleteItem`. -/
def deleteItem (cfg : Config) (name : String) (remote : Settled) (w : World) : Json × World :=
  opaquePost cfg [("action", .str "deleteItem"), ("name", .str name)]
    "Barang berjaya dipadamkan" remote w

/-- Source lines 699-726: `deleteAllOrders`. -/
def deleteAllOrders (cfg : Config) (remote : Settled) (w : World) : Json × World :=
  opaquePost cfg [("action", .str "deleteAllOrders")] "Semua orders berjaya dipadamkan" remote w

/-! ## The drain pass as a sweep over the queue -/

/-- What one loop iteration leaves of an entry: nothing when the action is
unknown, nothing when the fetch returned, nothing when the raised counter
exceeds 3, else the entry with the raised counter. -/
def remains (out : Raced) (e : Entry) : List Entry :=
  if e.action = "resetPassword" ∨ e.action = "register" then
    match fetchWithTimeout out with
    | .ok _ => []
    | .error _ =>
      if 3 < e.attempts.getD 0 + 1 then []
      else [{ e with attempts := some (e.attempts.getD 0 + 1) }]
  else []

/-- The entries a pass leaves, in queue order; `base` is the index of the head. -/
def sweep (outcome : Nat → Entry → Raced) : Nat → List Entry → List Entry
  | _, [] => []
  | base, e :: es => remains (outcome base e) e ++ sweep outcome (base + 1) es

/-- The request a pass issues for an entry with a known action. -/
def entryRequest (cfg : Config) (e : Entry) : Request :=
  if e.action = "resetPassword" then resetPasswordRequest cfg e
  else registerEntryRequest cfg e

/-- The fetch a pass issues for an entry, if any. -/
def delivery (cfg : Config) (e : Entry) : Option Event :=
  if e.action = "resetPassword" ∨ e.action = "register" then
    some (.fetch (entryRequest cfg e))
  else none

/-- The fetches of a pass over `q`, in the order they are issued. -/
def deliveries (cfg : Config) (q : List Entry) : List Event :=
  q.reverse.filterMap (delivery cfg)


/-- The gateway calls of a pass over `q`, in the order they are issued. -/
def callsFor (cfg : Config) (q : List Entry) : List Request :=
  gatewayCalls (deliveries cfg q)

/-- The entries left by `k` passes in a row. -/
def sweeps (outcomes : Nat → Nat → Entry → Raced) : Nat → List Entry → List Entry
  | 0, q => q
  | k + 1, q => sweep (outcomes k) 0 (sweeps outcomes k q)

/-- The persisted queue as the next read sees it (empty when unreadable). -/
def World.queue (w : World) : List Entry :=
  w.syncQueue.read.getD []

/-- The same world with `q` as its persisted queue. -/
def World.withQueue (w : World) (q : List Entry) : World :=
  { w with syncQueue := .records q }

/-- The queue that `k` drain passes in a row leave of the persisted queue `q`,
when nothing else runs in between. -/
def leftAfter (cfg : Config) (outcomes : Nat → Nat → Entry → Raced) (k : Nat)
    (q : List Entry) : List Entry :=
  (drainPasses cfg outcomes k ⟨.absent, .records q, false, [], []⟩).queue

/-- One move of the sync queue machinery: a call of `processSyncQueue` (the
timer of line 138 or any caller), a call of `addToSyncQueue`, or the fetch of
the parked pass settling. -/
inductive Step (cfg : Config) : World → World → Prop where
  | call (w : World) : Step cfg w (processSyncQueue cfg w)
  | add (now : Nat) (item : Entry) (w : World) : Step cfg w (addToSyncQueue cfg now item w)
  | settled (out : Raced) (w : World) : Step cfg w (settle cfg out w)

/-- The worlds the machinery can be in, starting at page load: the flag is
unset and no pass is parked. -/
inductive Reachable (cfg : Config) : World → Prop where
  | start (w : World) : w.processing = false → w.frames = [] → Reachable cfg w
  | step (w w2 : World) : Reachable cfg w → Step cfg w w2 → Reachable cfg w2

/-- The method `toLowerCase` on ASCII text. -/
def lowerAscii (s : String) : String :=
  ⟨s.data.map Char.toLower⟩

/-- The configuration with the placeholder of line 18 as endpoint. -/
def placeholder : Config :=
  ⟨"YOUR_WEB_APP_URL_HERE"⟩

/-- The configuration of line 12. -/
def deployed : Config :=
  ⟨"https://script.google.com/macros/s/AKfycbzKPj98h99ZaePNZYGFaHrv6IYxHWLVOy_WnaAzgiTaD50ELrabszb23DUHmJcNXqDH/exec"⟩

/-- The world at page load with an empty Local Store. -/
def fresh : World :=
  ⟨.absent, .absent, false, [], []⟩

/-- A sample `resetPassword` entry, as `addToSyncQueue` stores it. -/
def resetEntry : Entry :=
  ⟨"resetPassword", some "a@x.com", some "pw2", none, some 0, some 7⟩

/-- A sample `register` entry that has failed once. -/
def registerEntry : Entry :=
  ⟨"register", none, none, some (.str "Ana"), some 1, some 8⟩

/-- A sample entry whose action the drain pass does not know. -/
def unknownEntry : Entry :=
  ⟨"noop", none, none, none, some 0, some 9⟩

/-! ## The drain pass as the spec words it: filter and rebuild -/

/-- Filter-and-rebuild, one entry: an entry is dropped when its action is
unknown, when it was delivered, or when its `attempts` plus one exceeds 3 after
a failed delivery; every other entry is kept with `attempts` raised by one and
all other fields as they were. -/
def rebuilt (out : Raced) (e : Entry) : Option Entry :=
  if e.action ≠ "resetPassword" ∧ e.action ≠ "register" then none
  else
    match fetchWithTimeout out with
    | .ok _ => none
    | .error _ =>
      if 3 < e.attempts.getD 0 + 1 then none
      else some { e with attempts := some (e.attempts.getD 0 + 1) }

/-- Filter-and-rebuild of a whole queue, in the original order; the delivery
of the entry at index `i` ends as `outcome i entry`. -/
def filterAndRebuild (outcome : Nat → Entry → Raced) (q : List Entry) : List Entry :=
  q.enum.filterMap fun p => rebuilt (outcome p.1 p.2) p.2

/-- The delivery attempts of a pass as the spec words them: one request for
each entry with a known action, in reverse insertion order. -/
def attemptOrder (cfg : Config) (q : List Entry) : List Request :=
  (q.reverse.filter fun e => decide (e.action = "resetPassword" ∨ e.action = "register")).map
    (entryRequest cfg)

/-! ## Lemmas on the drain pass -/

theorem sweep_append (outcome : Nat → Entry → Raced) (xs ys : List Entry) (base : Nat) :
    sweep outcome base (xs ++ ys)
      = sweep outcome base xs ++ sweep outcome (base + xs.length) ys := by
  induction xs generalizing base with
  | nil => simp [sweep]
  | cons x xs ih =>
    have h : base + 1 + xs.length = base + (xs.length + 1) := by omega
    rw [List.cons_append, sweep, sweep, ih, List.length_cons, List.append_assoc, h]

theorem settleAll_drainFrom (cfg : Config) (outcome : Nat → Entry → Raced)
    (pre : List Entry) :
    ∀ (suf : List Entry) (w : World) (fuel : Nat), pre.length ≤ fuel → w.frames = [] →
      settleAll cfg outcome fuel (drainFrom cfg pre.length (pre ++ suf) w)
        = { w with
            syncQueue := .records (sweep outcome 0 pre ++ suf)
            processing := false
            trace := w.trace ++ deliveries cfg pre ++ [.setItem "syncQueue"] } := by
  induction pre using List.reverseRecOn with
  | nil =>
    intro suf w fuel _ hfr
    cases fuel <;> simp [drainFrom, settleAll, sweep, deliveries, hfr]
  | append_singleton pre e ih =>
    intro suf w fuel hfuel hfr
    have hlen : (pre ++ [e]).length = pre.length + 1 := by simp
    have hget : (pre ++ [e] ++ suf)[pre.length]? = some e := by
      rw [List.append_assoc, List.getElem?_append_right (le_refl _)]
      simp
    have herase : (pre ++ [e] ++ suf).eraseIdx pre.length = pre ++ suf := by
      simp [List.eraseIdx_append_of_length_le]
    have hset : ∀ x : Entry, (pre ++ [e] ++ suf).set pre.length x = pre ++ (x :: suf) := by
      intro x
      simp
    obtain ⟨fuel, rfl⟩ : ∃ k, fuel = k + 1 := ⟨fuel - 1, by rw [hlen] at hfuel; omega⟩
    have hfuel2 : pre.length ≤ fuel := by rw [hlen] at hfuel; omega
    have key : ∀ ev : Event,
        settleAll cfg outcome (fuel + 1)
          { w with
            frames := w.frames ++ [⟨pre ++ [e] ++ suf, pre.length, e⟩]
            trace := w.trace ++ [ev] }
        = { w with
            syncQueue := .records (sweep outcome 0 pre ++
              (match fetchWithTimeout (outcome pre.length e) with
                | .ok _ => []
                | .error _ =>
                  if 3 < e.attempts.getD 0 + 1 then []
                  else [{ e with attempts := some (e.attempts.getD 0 + 1) }]) ++ suf)
            processing := false
            trace := w.trace ++ [ev] ++ deliveries cfg pre ++ [.setItem "syncQueue"] } := by
      intro ev
      rw [settleAll]
      simp only [hfr, List.nil_append]
      rw [settle]
      simp only []
      cases hout : fetchWithTimeout (outcome pre.length e) with
      | ok r =>
        simp only [herase]
        rw [ih suf _ fuel hfuel2 rfl]
        simp
      | error msg =>
        simp only [herase, hset]
        by_cases h3 : 3 < e.attempts.getD 0 + 1
        · simp only [h3, if_true]
          rw [ih suf _ fuel hfuel2 rfl]
          simp
        · simp only [h3, if_false]
          rw [ih _ _ fuel hfuel2 rfl]
          simp
    rw [hlen, drainFrom, hget]
    simp only []
    have hsw : sweep outcome 0 (pre ++ [e])
        = sweep outcome 0 pre ++ remains (outcome pre.length e) e := by
      rw [sweep_append]
      simp [sweep]
    have hdel : deliveries cfg (pre ++ [e])
        = (delivery cfg e).toList ++ deliveries cfg pre := by
      simp [deliveries, List.filterMap_cons]
      cases delivery cfg e <;> simp
    rw [hsw, hdel]
    by_cases h1 : e.action = "resetPassword"
    · rw [if_pos h1, key]
      simp [remains, delivery, entryRequest, h1]
    · by_cases h2 : e.action = "register"
      · rw [if_neg h1, if_pos h2, key]
        simp [remains, delivery, entryRequest, h1, h2]
      · rw [if_neg h1, if_neg h2, herase, ih suf w (fuel + 1) (by omega) hfr]
        simp [remains, delivery, h1, h2]

theorem drainPass_eq (cfg : Config) (outcome : Nat → Entry → Raced) (w : World)
    (q : List Entry) (hidle : w.processing = false) (hfr : w.frames = [])
    (hq : w.syncQueue.read = some q) :
    drainPass cfg outcome w =
      if q.length = 0 then { w with trace := w.trace ++ [.getItem "syncQueue"] }
      else
        { w with
          syncQueue := .records (sweep outcome 0 q)
          trace := w.trace ++ [.getItem "syncQueue"] ++ deliveries cfg q
            ++ [.setItem "syncQueue"] } := by
  unfold drainPass processSyncQueue
  simp only [hidle, hq, Option.getD_some, Bool.false_eq_true, if_false]
  by_cases hlen : q.length = 0
  · rw [if_pos hlen, if_pos hlen, hlen]
    simp [settleAll, ← hidle]
  · rw [if_neg hlen, if_neg hlen]
    have h := settleAll_drainFrom cfg outcome q [] 
      { w with processing := true, trace := w.trace ++ [.getItem "syncQueue"] }
      q.length (le_refl _) hfr
    rw [List.append_nil] at h
    rw [h]
    simp [← hidle]

/-! ## Lemmas on registration and login -/

theorem registerUser_of_duplicate (toLowerCase : String → String) (cfg : Config) (now : Nat)
    (a : Registration) (m : Raced) (w : World) (users : List Account)
    (hread : w.users.read = some users)
    (hany : users.any (fun u => toLowerCase u.email == toLowerCase a.email) = true) :
    registerUser toLowerCase cfg now a m w
      = (.returned (reply false "Email sudah digunakan"),
          { w with trace := w.trace ++ [.getItem "users"] }) := by
  unfold registerUser
  simp only [hread, hany, if_true]

theorem registerUser_of_new (toLowerCase : String → String) (cfg : Config) (now : Nat)
    (a : Registration) (m : Raced) (w : World) (users : List Account)
    (hread : w.users.read = some users)
    (hany : users.any (fun u => toLowerCase u.email == toLowerCase a.email) = false) :
    registerUser toLowerCase cfg now a m w
      = (.returned (reply true "Pendaftaran berjaya"),
          { w with
            users := .records (users ++ [⟨a.name, a.email, a.password, a.hint⟩])
            trace := w.trace ++ [.getItem "users", .setItem "users"]
              ++ (if isConfigured cfg then [.fetch (registerRequest cfg now a)] else []) }) := by
  unfold registerUser
  simp only [hread, hany]
  by_cases hc : isConfigured cfg = true
  · cases hm : fetchWithTimeout m <;> simp [hc]
  · simp [hc]

/-! ## Registration and login -/

/-- C1. Registering the same email twice in a row: whatever list of accounts
the Local Store holds (as long as it holds no account for `e`), whatever the
other arguments are and however the two mirror calls end, the first call
stores the account,
the second call returns the duplicate-account failure and leaves `users` as the
first call left it, and `users` then holds exactly one account whose email
equals `e` up to case. -/
theorem registerUser_twice_same_email (toLowerCase : String → String) (cfg : Config)
    (now1 now2 : Nat) (a1 a2 : Registration) (m1 m2 : Raced) (w : World)
    (users : List Account) (e : String)
    (hread : w.users.read = some users)
    (hnew : ∀ u ∈ users, toLowerCase u.email ≠ toLowerCase e)
    (h1 : toLowerCase a1.email = toLowerCase e)
    (h2 : toLowerCase a2.email = toLowerCase e) :
    (registerUser toLowerCase cfg now2 a2 m2
        (registerUser toLowerCase cfg now1 a1 m1 w).2).1
      = .returned (reply false "Email sudah digunakan")
    ∧ (registerUser toLowerCase cfg now2 a2 m2
        (registerUser toLowerCase cfg now1 a1 m1 w).2).2.users
      = (registerUser toLowerCase cfg now1 a1 m1 w).2.users
    ∧ (registerUser toLowerCase cfg now1 a1 m1 w).2.users
      = .records (users ++ [⟨a1.name, a1.email, a1.password, a1.hint⟩])
    ∧ ((users ++ [(⟨a1.name, a1.email, a1.password, a1.hint⟩ : Account)]).filter
        (fun u => toLowerCase u.email == toLowerCase e)).length = 1 := by
  have hany : users.any (fun u => toLowerCase u.email == toLowerCase a1.email) = false := by
    rw [List.any_eq_false]
    intro u hu
    simpa [h1] using hnew u hu
  have hfilter : users.filter (fun u => toLowerCase u.email == toLowerCase e) = [] := by
    rw [List.filter_eq_nil_iff]
    intro u hu
    simpa using hnew u hu
  have hany2 : (users ++ [(⟨a1.name, a1.email, a1.password, a1.hint⟩ : Account)]).any
      (fun u => toLowerCase u.email == toLowerCase a2.email) = true := by
    simp [h1, h2]
  have hfirst := registerUser_of_new toLowerCase cfg now1 a1 m1 w users hread hany
  have hsecond := registerUser_of_duplicate toLowerCase cfg now2 a2 m2
    (registerUser toLowerCase cfg now1 a1 m1 w).2
    (users ++ [(⟨a1.name, a1.email, a1.password, a1.hint⟩ : Account)])
    (by rw [hfirst]; rfl) hany2
  refine ⟨by rw [hsecond], by rw [hsecond], by rw [hfirst], ?_⟩
  simp [List.filter_append, hfilter, List.filter_cons, h1]
/-- Witness for C1: Ana registers `a@x.com` in an empty store, then a second
registration arrives for `A@X.COM`. -/
theorem registerUser_twice_same_email_witness :
    lowerAscii "A@X.COM" = lowerAscii "a@x.com"
    ∧ (registerUser lowerAscii deployed 2 ⟨"Ann", "A@X.COM", "pw2", none, none, none⟩ .aborted
        (registerUser lowerAscii deployed 1 ⟨"Ana", "a@x.com", "pw1", none, none, none⟩
          .aborted fresh).2).1
      = .returned (reply false "Email sudah digunakan")
    ∧ (registerUser lowerAscii deployed 1 ⟨"Ana", "a@x.com", "pw1", none, none, none⟩
          .aborted fresh).2.users
      = .records [⟨"Ana", "a@x.com", "pw1", none⟩] :=
  have h := registerUser_twice_same_email lowerAscii deployed 1 2
    ⟨"Ana", "a@x.com", "pw1", none, none, none⟩ ⟨"Ann", "A@X.COM", "pw2", none, none, none⟩
    .aborted .aborted fresh [] "a@x.com" rfl (by simp) rfl (by decide)
  ⟨by decide, h.1, h.2.2.1⟩

theorem loginUser_of_local_hit (toLowerCase : String → String) (cfg : Config)
    (email password : String) (remote : LoginFetch) (w : World) (users : List Account)
    (user : Account) (hread : w.users.read = some users)
    (hfind : users.find? (fun u => toLowerCase u.email == toLowerCase (trim email)
      && u.password == trim password) = some user) :
    loginUser toLowerCase cfg email password remote w
      = (.returned (.obj [("success", .bool true), ("message", .str "Login berjaya"),
          ("user", .obj [("name", .str user.name), ("email", .str user.email)])]),
          { w with trace := w.trace ++ [.getItem "users"] }) := by
  unfold loginUser
  simp only [hread, hfind]

/-- C2, as amended. `loginUser` trims both arguments before the local lookup:
if the Local Store holds an account whose email equals the trimmed `E` up to
case and whose password equals the trimmed `P` (an account with email `E` and
password `P` when neither has leading or trailing white space), then the call
returns success with the name and email of the first such account of the
store, reads `users` once and issues no gateway call, whatever the gateway
would have answered. -/
theorem loginUser_local_first (toLowerCase : String → String) (cfg : Config)
    (email password : String) (remote : LoginFetch) (w : World) (users : List Account)
    (account : Account) (hread : w.users.read = some users) (hmem : account ∈ users)
    (hemail : toLowerCase account.email = toLowerCase (trim email))
    (hpassword : account.password = trim password) :
    ∃ user : Account,
      users.find? (fun u => toLowerCase u.email == toLowerCase (trim email)
        && u.password == trim password) = some user
      ∧ loginUser toLowerCase cfg email password remote w
        = (.returned (.obj [("success", .bool true), ("message", .str "Login berjaya"),
            ("user", .obj [("name", .str user.name), ("email", .str user.email)])]),
            { w with trace := w.trace ++ [.getItem "users"] })
      ∧ gatewayCalls (loginUser toLowerCase cfg email password remote w).2.trace
        = gatewayCalls w.trace := by
  have hsome : (users.find? (fun u => toLowerCase u.email == toLowerCase (trim email)
      && u.password == trim password)).isSome = true := by
    rw [List.find?_isSome]
    exact ⟨account, hmem, by simp [hemail, hpassword]⟩
  obtain ⟨user, huser⟩ := Option.isSome_iff_exists.mp hsome
  have hrun := loginUser_of_local_hit toLowerCase cfg email password remote w users user
    hread huser
  refine ⟨user, huser, hrun, ?_⟩
  rw [hrun]
  simp [gatewayCalls, List.filterMap_append]

/-- Witness for C2 as amended: Ana logs in with the email and password she
registered with, typed with surrounding blanks. -/
theorem loginUser_local_first_witness :
    ∃ user : Account,
      [(⟨"Ana", "a@x.com", "pw1", none⟩ : Account)].find?
        (fun u => lowerAscii u.email == lowerAscii (trim " A@x.com ")
          && u.password == trim "pw1 ") = some user
      ∧ loginUser lowerAscii deployed " A@x.com " "pw1 " (.rejected "offline")
          ⟨.records [⟨"Ana", "a@x.com", "pw1", none⟩], .absent, false, [], []⟩
        = (.returned (.obj [("success", .bool true), ("message", .str "Login berjaya"),
            ("user", .obj [("name", .str user.name), ("email", .str user.email)])]),
            ⟨.records [⟨"Ana", "a@x.com", "pw1", none⟩], .absent, false, [],
              [.getItem "users"]⟩)
      ∧ gatewayCalls (loginUser lowerAscii deployed " A@x.com " "pw1 " (.rejected "offline")
          ⟨.records [⟨"Ana", "a@x.com", "pw1", none⟩], .absent, false, [], []⟩).2.trace
        = gatewayCalls [] :=
  loginUser_local_first lowerAscii deployed " A@x.com " "pw1 " (.rejected "offline")
    ⟨.records [⟨"Ana", "a@x.com", "pw1", none⟩], .absent, false, [], []⟩
    [⟨"Ana", "a@x.com", "pw1", none⟩] ⟨"Ana", "a@x.com", "pw1", none⟩ rfl
    (List.mem_singleton.mpr rfl) (by decide) (by decide)

/-- C2 as stated fails. Ana registers with the password `" pw1"` (a leading
blank), so the Local Store holds an account with exactly the email and the
password she then logs in with; `loginUser` compares the stored password with
the trimmed argument, misses locally and calls the gateway. -/
theorem loginUser_local_first_counterexample :
    (registerUser lowerAscii deployed 1 ⟨"Ana", "a@x.com", " pw1", none, none, none⟩
        .aborted fresh).1 = .returned (reply true "Pendaftaran berjaya")
    ∧ (registerUser lowerAscii deployed 1 ⟨"Ana", "a@x.com", " pw1", none, none, none⟩
        .aborted fresh).2.users = .records [⟨"Ana", "a@x.com", " pw1", none⟩]
    ∧ (loginUser lowerAscii deployed "a@x.com" " pw1" (.rejected "offline")
        ⟨.records [⟨"Ana", "a@x.com", " pw1", none⟩], .absent, false, [], []⟩).1
      = .returned (reply false "Email atau kata laluan salah")
    ∧ gatewayCalls (loginUser lowerAscii deployed "a@x.com" " pw1" (.rejected "offline")
        ⟨.records [⟨"Ana", "a@x.com", " pw1", none⟩], .absent, false, [], []⟩).2.trace
      = [loginRequest deployed "a@x.com" " pw1"] := by
  refine ⟨?_, ?_, ?_, ?_⟩
  · rfl
  · rfl
  · rfl
  · rfl

/-! ## More lemmas on drain passes -/

theorem drainPass_at_rest (cfg : Config) (outcome : Nat → Entry → Raced) (w : World)
    (hidle : w.processing = false) (hfr : w.frames = []) :
    (drainPass cfg outcome w).processing = false ∧ (drainPass cfg outcome w).frames = [] := by
  cases hq : w.syncQueue.read with
  | none =>
    unfold drainPass processSyncQueue
    simp only [hidle, hq, Bool.false_eq_true, if_false]
    cases (none : Option (List Entry)).getD [] |>.length <;> simp [settleAll, hfr]
  | some q =>
    rw [drainPass_eq cfg outcome w q hidle hfr hq]
    split <;> simp [hidle, hfr]

theorem drainPass_read (cfg : Config) (outcome : Nat → Entry → Raced) (w : World)
    (q : List Entry) (hidle : w.processing = false) (hfr : w.frames = [])
    (hq : w.syncQueue.read = some q) :
    (drainPass cfg outcome w).syncQueue.read = some (sweep outcome 0 q) := by
  rw [drainPass_eq cfg outcome w q hidle hfr hq]
  by_cases hlen : q.length = 0
  · rw [if_pos hlen]
    have hnil : q = [] := List.length_eq_zero.mp hlen
    simp [hq, hnil, sweep]
  · rw [if_neg hlen]
    rfl

theorem gatewayCalls_append (s t : List Event) :
    gatewayCalls (s ++ t) = gatewayCalls s ++ gatewayCalls t := by
  simp [gatewayCalls, List.filterMap_append]

theorem drainPass_calls (cfg : Config) (outcome : Nat → Entry → Raced) (w : World)
    (q : List Entry) (hidle : w.processing = false) (hfr : w.frames = [])
    (hq : w.syncQueue.read = some q) :
    gatewayCalls (drainPass cfg outcome w).trace = gatewayCalls w.trace ++ callsFor cfg q := by
  rw [drainPass_eq cfg outcome w q hidle hfr hq]
  by_cases hlen : q.length = 0
  · rw [if_pos hlen]
    have hnil : q = [] := List.length_eq_zero.mp hlen
    simp [hnil, callsFor, deliveries, gatewayCalls]
  · rw [if_neg hlen]
    simp [callsFor, gatewayCalls_append, gatewayCalls]

theorem drainPasses_spec (cfg : Config) (outcomes : Nat → Nat → Entry → Raced) (w : World)
    (q : List Entry) (hidle : w.processing = false) (hfr : w.frames = [])
    (hq : w.syncQueue.read = some q) (k : Nat) :
    (drainPasses cfg outcomes k w).processing = false
    ∧ (drainPasses cfg outcomes k w).frames = []
    ∧ (drainPasses cfg outcomes k w).syncQueue.read = some (sweeps outcomes k q) := by
  induction k with
  | zero => exact ⟨hidle, hfr, hq⟩
  | succ k ih =>
    obtain ⟨h1, h2, h3⟩ := ih
    have hrest := drainPass_at_rest cfg (outcomes k) _ h1 h2
    exact ⟨hrest.1, hrest.2, drainPass_read cfg (outcomes k) _ _ h1 h2 h3⟩

theorem drainPasses_queue (cfg : Config) (outcomes : Nat → Nat → Entry → Raced) (w : World)
    (q : List Entry) (hidle : w.processing = false) (hfr : w.frames = [])
    (hq : w.syncQueue.read = some q) (k : Nat) :
    (drainPasses cfg outcomes k w).queue = sweeps outcomes k q := by
  unfold World.queue
  rw [(drainPasses_spec cfg outcomes w q hidle hfr hq k).2.2]
  rfl

theorem drainPasses_calls (cfg : Config) (outcomes : Nat → Nat → Entry → Raced) (w : World)
    (q : List Entry) (hidle : w.processing = false) (hfr : w.frames = [])
    (hq : w.syncQueue.read = some q) (k : Nat) :
    gatewayCalls (drainPasses cfg outcomes (k + 1) w).trace
      = gatewayCalls (drainPasses cfg outcomes k w).trace
        ++ callsFor cfg (sweeps outcomes k q) := by
  obtain ⟨h1, h2, h3⟩ := drainPasses_spec cfg outcomes w q hidle hfr hq k
  exact drainPass_calls cfg (outcomes k) _ _ h1 h2 h3

theorem sweep_shift (outcome : Nat → Entry → Raced) (b : Nat) (q : List Entry) :
    ∀ c, sweep outcome (c + b) q = sweep (fun i => outcome (i + b)) c q := by
  induction q with
  | nil => intro c; rfl
  | cons e es ih =>
    intro c
    rw [sweep, sweep]
    have h : c + b + 1 = (c + 1) + b := by omega
    rw [h, ih (c + 1)]

theorem callsFor_append (cfg : Config) (xs ys : List Entry) :
    callsFor cfg (xs ++ ys) = callsFor cfg ys ++ callsFor cfg xs := by
  simp [callsFor, deliveries, gatewayCalls_append, List.filterMap_append]

theorem sweep_around (outcome : Nat → Entry → Raced) (pre post : List Entry) (e : Entry) :
    sweep outcome 0 (pre ++ e :: post)
      = sweep outcome 0 pre ++ remains (outcome pre.length e) e
        ++ sweep (fun i => outcome (i + (pre.length + 1))) 0 post := by
  rw [sweep_append, sweep, Nat.zero_add, ← sweep_shift outcome (pre.length + 1) post 0,
    Nat.zero_add, List.append_assoc]

theorem remains_of_failure (out : Raced) (e : Entry) (msg : String)
    (hknown : e.action = "resetPassword" ∨ e.action = "register")
    (hfail : fetchWithTimeout out = .error msg) :
    remains out e
      = if 3 < e.attempts.getD 0 + 1 then []
        else [{ e with attempts := some (e.attempts.getD 0 + 1) }] := by
  unfold remains
  rw [if_pos hknown, hfail]

theorem remains_of_return (out : Raced) (e : Entry) (r : Response)
    (hok : fetchWithTimeout out = .ok r) : remains out e = [] := by
  unfold remains
  rw [hok]
  simp

theorem remains_of_unknown (out : Raced) (e : Entry)
    (h1 : e.action ≠ "resetPassword") (h2 : e.action ≠ "register") : remains out e = [] := by
  unfold remains
  simp [h1, h2]

theorem sweeps_around (outcomes : Nat → Nat → Entry → Raced) (pre post : List Entry)
    (e : Entry) (hknown : e.action = "resetPassword" ∨ e.action = "register")
    (hzero : e.attempts = some 0)
    (hfail : ∀ k i a, ∃ msg,
      fetchWithTimeout (outcomes k i { e with attempts := some a }) = .error msg) (k : Nat) :
    sweeps outcomes k (pre ++ e :: post)
      = sweeps outcomes k pre
        ++ (if k ≤ 3 then [{ e with attempts := some k }] else [])
        ++ sweeps (fun j i => outcomes j
            (i + ((sweeps outcomes j pre).length + if j ≤ 3 then 1 else 0))) k post := by
  induction k with
  | zero =>
    have he : ({ e with attempts := some 0 } : Entry) = e := by
      cases e
      simp only [Entry.mk.injEq, true_and] at hzero ⊢
      simp [hzero]
    simp [sweeps, he]
  | succ k ih =>
    rw [sweeps, ih, sweeps, sweeps]
    by_cases hk : k ≤ 3
    · rw [if_pos hk]
      rw [List.append_assoc, List.singleton_append, sweep_around]
      obtain ⟨msg, hmsg⟩ := hfail k (sweeps outcomes k pre).length k
      rw [remains_of_failure _ { e with attempts := some k } msg hknown hmsg]
      simp only [Option.getD_some, if_pos hk]
      by_cases hk3 : k + 1 ≤ 3
      · have : ¬ 3 < k + 1 := by omega
        rw [if_neg this, if_pos hk3]
      · have : 3 < k + 1 := by omega
        rw [if_pos this, if_neg hk3]
    · have hk3 : ¬ k + 1 ≤ 3 := by omega
      rw [if_neg hk, if_neg hk3, List.append_nil, List.append_nil, sweep_append,
        Nat.zero_add]
      simp only [if_neg hk, Nat.add_zero]
      have h := sweep_shift (outcomes k) (sweeps outcomes k pre).length
        (sweeps (fun j i => outcomes j
            (i + ((sweeps outcomes j pre).length + if j ≤ 3 then 1 else 0))) k post) 0
      rw [Nat.zero_add] at h
      rw [h]

theorem leftAfter_eq (cfg : Config) (outcomes : Nat → Nat → Entry → Raced) (k : Nat)
    (q : List Entry) : leftAfter cfg outcomes k q = sweeps outcomes k q :=
  drainPasses_queue cfg outcomes ⟨.absent, .records q, false, [], []⟩ q rfl rfl rfl k

theorem callsFor_singleton (cfg : Config) (e : Entry)
    (hknown : e.action = "resetPassword" ∨ e.action = "register") :
    callsFor cfg [e] = [entryRequest cfg e] := by
  simp [callsFor, deliveries, delivery, hknown, gatewayCalls]

/-! ## The sync queue -/

/-- C3. An entry with a known action, enqueued with `attempts = 0`, whose
delivery fails in every pass, at whatever position `pre.length` of the
persisted queue it sits. After `k` passes the queue is what the passes leave
of the entries before it, then the entry itself with `attempts = k` as long as
`k ≤ 3` and nothing from the fourth pass on, then what the passes leave of the
entries behind it. Pass `k + 1` issues, between the calls for the entries
behind and before it, exactly one call for the entry as long as `k ≤ 3` and
none afterwards: four delivery attempts in all. -/
theorem failing_entry_four_attempts (cfg : Config) (outcomes : Nat → Nat → Entry → Raced)
    (w : World) (pre post : List Entry) (e : Entry)
    (hidle : w.processing = false) (hfr : w.frames = [])
    (hq : w.syncQueue.read = some (pre ++ e :: post))
    (hknown : e.action = "resetPassword" ∨ e.action = "register")
    (hzero : e.attempts = some 0)
    (hfail : ∀ k i a, ∃ msg,
      fetchWithTimeout (outcomes k i { e with attempts := some a }) = .error msg)
    (k : Nat) :
    (drainPasses cfg outcomes k w).queue
      = leftAfter cfg outcomes k pre
        ++ (if k ≤ 3 then [{ e with attempts := some k }] else [])
        ++ leftAfter cfg (fun j i => outcomes j
            (i + ((leftAfter cfg outcomes j pre).length + if j ≤ 3 then 1 else 0))) k post
    ∧ gatewayCalls (drainPasses cfg outcomes (k + 1) w).trace
      = gatewayCalls (drainPasses cfg outcomes k w).trace
        ++ callsFor cfg (leftAfter cfg (fun j i => outcomes j
            (i + ((leftAfter cfg outcomes j pre).length + if j ≤ 3 then 1 else 0))) k post)
        ++ (if k ≤ 3 then [entryRequest cfg e] else [])
        ++ callsFor cfg (leftAfter cfg outcomes k pre) := by
  have hfun : (fun j i => outcomes j
      (i + ((leftAfter cfg outcomes j pre).length + if j ≤ 3 then 1 else 0)))
      = (fun j i => outcomes j
      (i + ((sweeps outcomes j pre).length + if j ≤ 3 then 1 else 0))) := by
    funext j i
    rw [leftAfter_eq]
  rw [hfun, leftAfter_eq, leftAfter_eq, drainPasses_queue cfg outcomes w _ hidle hfr hq k,
    drainPasses_calls cfg outcomes w _ hidle hfr hq k,
    sweeps_around outcomes pre post e hknown hzero hfail k]
  refine ⟨rfl, ?_⟩
  rw [callsFor_append, callsFor_append, List.append_assoc, List.append_assoc]
  congr 2
  by_cases hk : k ≤ 3
  · rw [if_pos hk, if_pos hk, callsFor_singleton cfg { e with attempts := some k } hknown]
    rfl
  · rw [if_neg hk, if_neg hk]
    rfl

/-- Witness for C3: a queue holding one `resetPassword` entry while every
request times out, at the fourth pass and after it. -/
theorem failing_entry_four_attempts_witness :
    (drainPasses deployed (fun _ _ _ => .aborted) 4
        (fresh.withQueue ([] ++ resetEntry :: []))).queue
      = leftAfter deployed (fun _ _ _ => .aborted) 4 []
        ++ (if 4 ≤ 3 then [{ resetEntry with attempts := some 4 }] else [])
        ++ leftAfter deployed (fun j i => (fun _ _ _ => Raced.aborted) j
            (i + ((leftAfter deployed (fun _ _ _ => .aborted) j []).length
              + if j ≤ 3 then 1 else 0))) 4 []
    ∧ gatewayCalls (drainPasses deployed (fun _ _ _ => .aborted) (4 + 1)
        (fresh.withQueue ([] ++ resetEntry :: []))).trace
      = gatewayCalls (drainPasses deployed (fun _ _ _ => .aborted) 4
          (fresh.withQueue ([] ++ resetEntry :: []))).trace
        ++ callsFor deployed (leftAfter deployed (fun j i => (fun _ _ _ => Raced.aborted) j
            (i + ((leftAfter deployed (fun _ _ _ => .aborted) j []).length
              + if j ≤ 3 then 1 else 0))) 4 [])
        ++ (if 4 ≤ 3 then [entryRequest deployed resetEntry] else [])
        ++ callsFor deployed (leftAfter deployed (fun _ _ _ => .aborted) 4 []) :=
  failing_entry_four_attempts deployed (fun _ _ _ => .aborted)
    (fresh.withQueue ([] ++ resetEntry :: [])) [] [] resetEntry
    rfl rfl rfl (Or.inl rfl) rfl (fun _ _ _ => ⟨"Request timeout", rfl⟩) 4

theorem drainPass_around (cfg : Config) (outcome : Nat → Entry → Raced) (w : World)
    (pre post : List Entry) (e : Entry) (hidle : w.processing = false) (hfr : w.frames = [])
    (hq : w.syncQueue.read = some (pre ++ e :: post)) :
    (drainPass cfg outcome w).syncQueue
      = .records (leftAfter cfg (fun _ => outcome) 1 pre
          ++ remains (outcome pre.length e) e
          ++ leftAfter cfg (fun _ i => outcome (i + (pre.length + 1))) 1 post) := by
  rw [drainPass_eq cfg outcome w _ hidle hfr hq, if_neg (by simp), leftAfter_eq, leftAfter_eq]
  simp only [sweeps]
  rw [sweep_around]

/-- C4, as amended. The fate of the entry at position `pre.length` of the
persisted queue in one drain pass: the pass persists what it leaves of the
entries before it, then a slot for the entry, then what it leaves of the
entries behind it. The slot is empty exactly when the action is unknown, or
the fetch returned, or the raised counter exceeds 3; otherwise the slot holds
the entry with `attempts` raised by one and nothing else changed, and that
happens only for a known action whose fetch threw. -/
theorem entry_fate_in_pass (cfg : Config) (outcome : Nat → Entry → Raced) (w : World)
    (pre post : List Entry) (e : Entry) (hidle : w.processing = false) (hfr : w.frames = [])
    (hq : w.syncQueue.read = some (pre ++ e :: post)) :
    ∃ slot : List Entry,
      (drainPass cfg outcome w).syncQueue
        = .records (leftAfter cfg (fun _ => outcome) 1 pre ++ slot
            ++ leftAfter cfg (fun _ i => outcome (i + (pre.length + 1))) 1 post)
      ∧ (slot = [] ↔
          (e.action ≠ "resetPassword" ∧ e.action ≠ "register")
          ∨ (∃ r, fetchWithTimeout (outcome pre.length e) = .ok r)
          ∨ 3 < e.attempts.getD 0 + 1)
      ∧ (slot ≠ [] →
          slot = [{ e with attempts := some (e.attempts.getD 0 + 1) }]
          ∧ (e.action = "resetPassword" ∨ e.action = "register")
          ∧ ∃ msg, fetchWithTimeout (outcome pre.length e) = .error msg) := by
  refine ⟨remains (outcome pre.length e) e,
    drainPass_around cfg outcome w pre post e hidle hfr hq, ?_, ?_⟩
  · by_cases hknown : e.action = "resetPassword" ∨ e.action = "register"
    · cases hout : fetchWithTimeout (outcome pre.length e) with
      | ok r =>
        rw [remains_of_return _ _ r hout]
        simp
      | error msg =>
        rw [remains_of_failure _ _ msg hknown hout]
        by_cases h3 : 3 < e.attempts.getD 0 + 1
        · simp [h3]
        · rw [if_neg h3]
          have hn : ¬ (e.action ≠ "resetPassword" ∧ e.action ≠ "register") := by
            rintro ⟨h1, h2⟩
            exact hknown.elim h1 h2
          simp [h3, hn]
    · have h1 : e.action ≠ "resetPassword" := fun h => hknown (Or.inl h)
      have h2 : e.action ≠ "register" := fun h => hknown (Or.inr h)
      rw [remains_of_unknown _ _ h1 h2]
      simp [h1, h2]
  · intro hne
    by_cases hknown : e.action = "resetPassword" ∨ e.action = "register"
    · cases hout : fetchWithTimeout (outcome pre.length e) with
      | ok r => exact absurd (remains_of_return _ _ r hout) hne
      | error msg =>
        rw [remains_of_failure _ _ msg hknown hout] at hne ⊢
        by_cases h3 : 3 < e.attempts.getD 0 + 1
        · rw [if_pos h3] at hne
          exact absurd rfl hne
        · rw [if_neg h3]
          exact ⟨rfl, hknown, msg, rfl⟩
    · have h1 : e.action ≠ "resetPassword" := fun h => hknown (Or.inl h)
      have h2 : e.action ≠ "register" := fun h => hknown (Or.inr h)
      exact absurd (remains_of_unknown _ _ h1 h2) hne

/-- Witness for C4 as amended: a `register` entry between two others, in a
pass whose requests all time out. -/
theorem entry_fate_in_pass_witness :
    ∃ slot : List Entry,
      (drainPass deployed (fun _ _ => .aborted)
        (fresh.withQueue ([resetEntry] ++ registerEntry :: [unknownEntry]))).syncQueue
        = .records (leftAfter deployed (fun _ => fun _ _ => .aborted) 1 [resetEntry]
            ++ slot
            ++ leftAfter deployed (fun _ i => (fun _ _ => Raced.aborted)
                (i + ([resetEntry].length + 1))) 1 [unknownEntry])
      ∧ slot = [{ registerEntry with attempts := some 2 }] := by
  obtain ⟨slot, h1, h2, h3⟩ := entry_fate_in_pass deployed (fun _ _ => .aborted)
    (fresh.withQueue ([resetEntry] ++ registerEntry :: [unknownEntry]))
    [resetEntry] [unknownEntry] registerEntry rfl rfl rfl
  refine ⟨slot, h1, ?_⟩
  have hne : slot ≠ [] := by
    intro hnil
    have := h2.mp hnil
    simp [fetchWithTimeout, registerEntry] at this
  exact (h3 hne).1

/-- C4 as stated fails for an entry with an unknown action: the pass removes
it from the persisted queue although the pass issued no request at all, so no
delivery succeeded, and although its counter, which the pass never raised,
would not exceed 3 even after a raise. -/
theorem entry_fate_in_pass_counterexample :
    (drainPass deployed (fun _ _ => .aborted) (fresh.withQueue [unknownEntry])).syncQueue
      = .records []
    ∧ gatewayCalls
        (drainPass deployed (fun _ _ => .aborted) (fresh.withQueue [unknownEntry])).trace = []
    ∧ unknownEntry.action ≠ "resetPassword" ∧ unknownEntry.action ≠ "register"
    ∧ ¬ (3 < unknownEntry.attempts.getD 0 + 1) := by
  refine ⟨rfl, rfl, by decide, by decide, by decide⟩

/-- C5, as amended. For an entry with action `resetPassword` or `register` at
position `pre.length`, a drain pass treats the delivery as failed exactly when
`fetchWithTimeout` throws. When the gateway answers with an HTTP response of
any status, a non-2xx status included, the entry is removed as delivered and
its counter is not raised. When the fetch rejects or the deadline passes, the
counter is raised by one and the entry stays, unless the raised counter
exceeds 3. -/
theorem delivery_fails_only_on_throw (cfg : Config) (outcome : Nat → Entry → Raced)
    (w : World) (pre post : List Entry) (e : Entry)
    (hidle : w.processing = false) (hfr : w.frames = [])
    (hq : w.syncQueue.read = some (pre ++ e :: post))
    (hknown : e.action = "resetPassword" ∨ e.action = "register") :
    (∀ r, outcome pre.length e = .first (.response r) →
      (drainPass cfg outcome w).syncQueue
        = .records (leftAfter cfg (fun _ => outcome) 1 pre
            ++ leftAfter cfg (fun _ i => outcome (i + (pre.length + 1))) 1 post))
    ∧ ((outcome pre.length e = .aborted ∨ ∃ msg, outcome pre.length e = .first (.rejected msg)) →
      (drainPass cfg outcome w).syncQueue
        = .records (leftAfter cfg (fun _ => outcome) 1 pre
            ++ (if 3 < e.attempts.getD 0 + 1 then []
                else [{ e with attempts := some (e.attempts.getD 0 + 1) }])
            ++ leftAfter cfg (fun _ i => outcome (i + (pre.length + 1))) 1 post)) := by
  have h := drainPass_around cfg outcome w pre post e hidle hfr hq
  constructor
  · intro r hr
    rw [h, remains_of_return _ _ r (by rw [hr]; rfl), List.append_nil]
  · intro hthrow
    rw [h]
    rcases hthrow with hab | ⟨msg, hrej⟩
    · rw [remains_of_failure _ _ "Request timeout" hknown (by rw [hab]; rfl)]
    · rw [remains_of_failure _ _ msg hknown (by rw [hrej]; rfl)]

/-- Witness for C5 as amended: the same entry once answered with status 500
and once timed out. -/
theorem delivery_fails_only_on_throw_witness :
    (drainPass deployed (fun _ _ => .first (.response ⟨500, .ok "Internal Server Error", none⟩))
        (fresh.withQueue ([] ++ resetEntry :: []))).syncQueue
      = .records (leftAfter deployed
            (fun _ => fun _ _ => .first (.response ⟨500, .ok "Internal Server Error", none⟩)) 1 []
          ++ leftAfter deployed
            (fun _ i => (fun _ _ => Raced.first (.response ⟨500, .ok "Internal Server Error", none⟩))
              (i + (([] : List Entry).length + 1))) 1 [])
    ∧ (drainPass deployed (fun _ _ => .aborted)
        (fresh.withQueue ([] ++ resetEntry :: []))).syncQueue
      = .records (leftAfter deployed (fun _ => fun _ _ => .aborted) 1 []
          ++ (if 3 < resetEntry.attempts.getD 0 + 1 then []
              else [{ resetEntry with attempts := some (resetEntry.attempts.getD 0 + 1) }])
          ++ leftAfter deployed
            (fun _ i => (fun _ _ => Raced.aborted) (i + (([] : List Entry).length + 1))) 1 []) :=
  ⟨(delivery_fails_only_on_throw deployed
      (fun _ _ => .first (.response ⟨500, .ok "Internal Server Error", none⟩))
      (fresh.withQueue ([] ++ resetEntry :: [])) [] [] resetEntry rfl rfl rfl (Or.inl rfl)).1
      ⟨500, .ok "Internal Server Error", none⟩ rfl,
   (delivery_fails_only_on_throw deployed (fun _ _ => .aborted)
      (fresh.withQueue ([] ++ resetEntry :: [])) [] [] resetEntry rfl rfl rfl (Or.inl rfl)).2
      (Or.inl rfl)⟩

/-- C5 as stated fails: the gateway answers the delivery of a `resetPassword`
entry with status 500, which is not `ok`; the pass nevertheless removes the
entry as delivered instead of keeping it with `attempts = 1`. -/
theorem delivery_fails_only_on_throw_counterexample :
    Response.ok ⟨500, .ok "Internal Server Error", none⟩ = false
    ∧ (drainPass deployed
        (fun _ _ => .first (.response ⟨500, .ok "Internal Server Error", none⟩))
        (fresh.withQueue [resetEntry])).syncQueue = .records []
    ∧ (drainPass deployed (fun _ _ => .aborted) (fresh.withQueue [resetEntry])).syncQueue
      = .records [{ resetEntry with attempts := some 1 }] := by
  refine ⟨rfl, rfl, rfl⟩

/-- C6, as amended. On a readable persisted queue `q`, lines 80-82 of
`addToSyncQueue` persist `q` with exactly one entry appended at the end and
touch nothing else; the drain pass is kicked off only afterwards, and is a
no-op when a pass is already active. The appended entry carries the fields of
the item over the defaults `attempts = 0` and `ts = now`: it has `attempts = 0`
and `ts = now` when the item has no such field, and an `attempts` or `ts` field
of the item takes precedence. -/
theorem addToSyncQueue_appends (cfg : Config) (now : Nat) (item : Entry) (w : World)
    (q : List Entry) (hq : w.syncQueue.read = some q) :
    ∃ w1 entry,
      enqueue now item w = some w1
      ∧ w1.syncQueue = .records (q ++ [entry])
      ∧ w1.users = w.users ∧ w1.processing = w.processing ∧ w1.frames = w.frames
      ∧ gatewayCalls w1.trace = gatewayCalls w.trace
      ∧ addToSyncQueue cfg now item w = processSyncQueue cfg w1
      ∧ (w.processing = true → addToSyncQueue cfg now item w = w1)
      ∧ entry.action = item.action ∧ entry.email = item.email
      ∧ entry.newPassword = item.newPassword ∧ entry.payload = item.payload
      ∧ entry.attempts = some (item.attempts.getD 0)
      ∧ entry.ts = some (item.ts.getD now)
      ∧ (item.attempts = none → entry.attempts = some 0)
      ∧ (item.ts = none → entry.ts = some now) := by
  refine ⟨{ w with
      syncQueue := .records (q ++ [withDefaults now item])
      trace := w.trace ++ [.getItem "syncQueue", .setItem "syncQueue"] },
    withDefaults now item, ?_, rfl, rfl, rfl, rfl, ?_, ?_, ?_, rfl, rfl, rfl, rfl, rfl, rfl,
    ?_, ?_⟩
  · unfold enqueue
    rw [hq]
  · simp [gatewayCalls, List.filterMap_append]
  · unfold addToSyncQueue enqueue
    rw [hq]
  · intro hbusy
    unfold addToSyncQueue enqueue
    rw [hq]
    unfold processSyncQueue
    simp [hbusy]
  · intro h
    simp [withDefaults, h]
  · intro h
    simp [withDefaults, h]

/-- Witness for C6 as amended: a `resetPassword` item without counter and
timestamp is added while a pass is active. -/
theorem addToSyncQueue_appends_witness :
    ∃ w1 entry,
      enqueue 100 ⟨"resetPassword", some "b@x.com", some "pw3", none, none, none⟩
        (processSyncQueue deployed (fresh.withQueue [resetEntry])) = some w1
      ∧ w1.syncQueue = .records ([resetEntry] ++ [entry])
      ∧ addToSyncQueue deployed 100
          ⟨"resetPassword", some "b@x.com", some "pw3", none, none, none⟩
          (processSyncQueue deployed (fresh.withQueue [resetEntry])) = w1
      ∧ entry.attempts = some 0 ∧ entry.ts = some 100 := by
  obtain ⟨w1, entry, h1, h2, _, _, _, _, _, h8, _, _, _, _, _, _, h15, h16⟩ :=
    addToSyncQueue_appends deployed 100
      ⟨"resetPassword", some "b@x.com", some "pw3", none, none, none⟩
      (processSyncQueue deployed (fresh.withQueue [resetEntry])) [resetEntry] rfl
  exact ⟨w1, entry, h1, h2, h8 rfl, h15 rfl, h16 rfl⟩

/-- C6 as stated fails for an item that has an `attempts` or a `ts` property
of its own: `Object.assign` copies them over the defaults, so the entry
appended at time 100 has `attempts = 5` and `ts = 8`, not `attempts = 0` and
`ts = 100`. -/
theorem addToSyncQueue_appends_counterexample :
    (enqueue 100 ⟨"register", none, none, some (.str "Ana"), some 5, some 8⟩ fresh).map
        (fun w1 => w1.syncQueue)
      = some (.records [⟨"register", none, none, some (.str "Ana"), some 5, some 8⟩])
    ∧ (some 5 : Option Nat) ≠ some 0 ∧ (some 8 : Option Nat) ≠ some 100 := by
  refine ⟨rfl, by decide, by decide⟩

theorem drainFrom_flag (cfg : Config) (n : Nat) :
    ∀ (q : List Entry) (w : World), w.frames = [] →
      ((drainFrom cfg n q w).frames = [] ∧ (drainFrom cfg n q w).processing = false)
      ∨ ((drainFrom cfg n q w).frames.length = 1
          ∧ (drainFrom cfg n q w).processing = w.processing) := by
  induction n with
  | zero =>
    intro q w hfr
    left
    simp [drainFrom, hfr]
  | succ n ih =>
    intro q w hfr
    rw [drainFrom]
    cases hget : q[n]? with
    | none =>
      left
      simp [hfr]
    | some item =>
      simp only []
      by_cases h1 : item.action = "resetPassword"
      · rw [if_pos h1]
        right
        simp [hfr]
      · rw [if_neg h1]
        by_cases h2 : item.action = "register"
        · rw [if_pos h2]
          right
          simp [hfr]
        · rw [if_neg h2]
          exact ih _ w hfr

theorem processSyncQueue_inv (cfg : Config) (w : World)
    (hinv : w.frames.length ≤ 1 ∧ (w.processing = true ↔ w.frames ≠ [])) :
    (processSyncQueue cfg w).frames.length ≤ 1
    ∧ ((processSyncQueue cfg w).processing = true ↔ (processSyncQueue cfg w).frames ≠ []) := by
  unfold processSyncQueue
  by_cases hp : w.processing = true
  · rw [if_pos hp]
    exact hinv
  · rw [if_neg hp]
    have hfr : w.frames = [] := by
      by_contra hne
      exact hp (hinv.2.mpr hne)
    simp only []
    cases hq : w.syncQueue.read with
    | none => simp [hfr]
    | some q =>
      simp only []
      by_cases hlen : q.length = 0
      · rw [if_pos hlen]
        simp [hfr]
      · rw [if_neg hlen]
        rcases drainFrom_flag cfg q.length q
          { w with processing := true, trace := w.trace ++ [.getItem "syncQueue"] } hfr
          with ⟨h1, h2⟩ | ⟨h1, h2⟩
        · simp [h1, h2]
        · refine ⟨by omega, ?_⟩
          rw [h2]
          constructor
          · intro _ hnil
            rw [hnil] at h1
            simp at h1
          · intro _
            rfl

theorem settle_inv (cfg : Config) (out : Raced) (w : World)
    (hinv : w.frames.length ≤ 1 ∧ (w.processing = true ↔ w.frames ≠ [])) :
    (settle cfg out w).frames.length ≤ 1
    ∧ ((settle cfg out w).processing = true ↔ (settle cfg out w).frames ≠ []) := by
  unfold settle
  cases hfr : w.frames with
  | nil =>
    simp only []
    rw [hfr] at hinv
    rw [hfr]
    exact hinv
  | cons f rest =>
    have hrest : rest = [] := by
      have := hinv.1
      rw [hfr] at this
      simp at this
      exact this
    have hp : w.processing = true := hinv.2.mpr (by rw [hfr]; simp)
    have key : ∀ q : List Entry,
        (drainFrom cfg f.i q { w with frames := rest }).frames.length ≤ 1
        ∧ ((drainFrom cfg f.i q { w with frames := rest }).processing = true
            ↔ (drainFrom cfg f.i q { w with frames := rest }).frames ≠ []) := by
      intro q
      rcases drainFrom_flag cfg f.i q { w with frames := rest } hrest with ⟨h1, h2⟩ | ⟨h1, h2⟩
      · simp [h1, h2]
      · refine ⟨by omega, ?_⟩
        rw [h2]
        constructor
        · intro _ hnil
          rw [hnil] at h1
          simp at h1
        · intro _
          exact hp
    simp only []
    cases fetchWithTimeout out with
    | ok r => exact key _
    | error msg =>
      simp only []
      split
      · exact key _
      · exact key _

theorem addToSyncQueue_inv (cfg : Config) (now : Nat) (item : Entry) (w : World)
    (hinv : w.frames.length ≤ 1 ∧ (w.processing = true ↔ w.frames ≠ [])) :
    (addToSyncQueue cfg now item w).frames.length ≤ 1
    ∧ ((addToSyncQueue cfg now item w).processing = true
        ↔ (addToSyncQueue cfg now item w).frames ≠ []) := by
  unfold addToSyncQueue enqueue
  cases hq : w.syncQueue.read with
  | none => exact hinv
  | some q => exact processSyncQueue_inv cfg _ hinv

/-- C7. Single-flight drain. A call of `processSyncQueue` made while the flag
is set changes nothing: no gateway call, no access to the Local Store, the
flag stays set. From page load on, whatever calls of `processSyncQueue` and
`addToSyncQueue` and whatever fetch outcomes follow one another, at most one
drain pass is active, and the flag is set exactly while one is; so a pass that
ends has cleared the flag. A pass run to its end, from a readable, empty or
unparseable queue alike, leaves the flag cleared and nothing parked. -/
theorem single_flight_drain (cfg : Config) :
    (∀ w : World, w.processing = true → processSyncQueue cfg w = w)
    ∧ (∀ w : World, Reachable cfg w →
        w.frames.length ≤ 1 ∧ (w.processing = true ↔ w.frames ≠ []))
    ∧ (∀ (outcome : Nat → Entry → Raced) (w : World), w.processing = false → w.frames = [] →
        (drainPass cfg outcome w).processing = false ∧ (drainPass cfg outcome w).frames = []) := by
  refine ⟨?_, ?_, ?_⟩
  · intro w hbusy
    unfold processSyncQueue
    rw [if_pos hbusy]
  · intro w hreach
    induction hreach with
    | start w hidle hfr => simp [hidle, hfr]
    | step w w2 _ hstep ih =>
      cases hstep with
      | call => exact processSyncQueue_inv cfg w ih
      | add now item => exact addToSyncQueue_inv cfg now item w ih
      | settled out => exact settle_inv cfg out w ih
  · intro outcome w hidle hfr
    exact drainPass_at_rest cfg outcome w hidle hfr

/-- Witness for C7: a pass is parked on the delivery of a `resetPassword`
entry when the timer calls `processSyncQueue` again. -/
theorem single_flight_drain_witness :
    processSyncQueue deployed (processSyncQueue deployed (fresh.withQueue [resetEntry]))
      = processSyncQueue deployed (fresh.withQueue [resetEntry])
    ∧ (processSyncQueue deployed (fresh.withQueue [resetEntry])).frames.length ≤ 1
    ∧ (drainPass deployed (fun _ _ => .aborted)
        (fresh.withQueue [resetEntry])).processing = false :=
  ⟨(single_flight_drain deployed).1 _ rfl,
   ((single_flight_drain deployed).2.1 _
      (.step _ _ (.start (fresh.withQueue [resetEntry]) rfl rfl) (.call _))).1,
   ((single_flight_drain deployed).2.2 (fun _ _ => .aborted)
      (fresh.withQueue [resetEntry]) rfl rfl).1⟩

/-! ## Remote-only operations and corrupt stores -/

theorem queryCall_of_body (cfg : Config) (req : Request) (assumed body : String)
    (r : Response) (w : World) (hcfg : isConfigured cfg = true) (hbody : r.text = .ok body) :
    (queryCall cfg req assumed (.response r) w).1
      = match r.json with
        | some result => result
        | none => reply true assumed := by
  unfold queryCall
  simp only [hcfg, Bool.not_true, Bool.false_eq_true, if_false, fetch, hbody]
  cases r.json <;> rfl

/-- C8. With a configured endpoint and a response whose body can be read, each
of `addItem`, `updateItem`, `requestStock`, `updateRequestStatus` and
`deleteUser` returns, for all arguments, an object with `success = true` when
the body is not parseable as JSON, and the parsed value itself when it is. -/
theorem implicit_success_on_unparseable_body (cfg : Config) (now : Nat) (r : Response)
    (body : String) (w : World) (hcfg : isConfigured cfg = true) (hbody : r.text = .ok body) :
    (r.json = none →
      (∀ name stock, (addItem cfg now name stock (.response r) w).1
        = reply true "Barang berjaya ditambah")
      ∧ (∀ name stock, (updateItem cfg now name stock (.response r) w).1
        = reply true "Stok berjaya dikemaskini")
      ∧ (∀ teacherEmail teacherName item qty,
        (requestStock cfg now teacherEmail teacherName item qty (.response r) w).1
          = reply true "Request berjaya dihantar (no parse)")
      ∧ (∀ email item status reason,
        (updateRequestStatus cfg now email item status reason (.response r) w).1
          = reply true "Status diupdate")
      ∧ (∀ email, (deleteUser cfg now email (.response r) w).1
        = reply true "Pengguna berjaya dipadam"))
    ∧ (∀ result, r.json = some result →
      (∀ name stock, (addItem cfg now name stock (.response r) w).1 = result)
      ∧ (∀ name stock, (updateItem cfg now name stock (.response r) w).1 = result)
      ∧ (∀ teacherEmail teacherName item qty,
        (requestStock cfg now teacherEmail teacherName item qty (.response r) w).1 = result)
      ∧ (∀ email item status reason,
        (updateRequestStatus cfg now email item status reason (.response r) w).1 = result)
      ∧ (∀ email, (deleteUser cfg now email (.response r) w).1 = result)) := by
  constructor
  · intro hnone
    refine ⟨?_, ?_, ?_, ?_, ?_⟩
    · intro name stock
      rw [addItem, queryCall_of_body cfg _ _ body r w hcfg hbody, hnone]
    · intro name stock
      rw [updateItem, queryCall_of_body cfg _ _ body r w hcfg hbody, hnone]
    · intro teacherEmail teacherName item qty
      rw [requestStock, queryCall_of_body cfg _ _ body r w hcfg hbody, hnone]
    · intro email item status reason
      rw [updateRequestStatus, queryCall_of_body cfg _ _ body r w hcfg hbody, hnone]
    · intro email
      rw [deleteUser, queryCall_of_body cfg _ _ body r w hcfg hbody, hnone]
  · intro result hsome
    refine ⟨?_, ?_, ?_, ?_, ?_⟩
    · intro name stock
      rw [addItem, queryCall_of_body cfg _ _ body r w hcfg hbody, hsome]
    · intro name stock
      rw [updateItem, queryCall_of_body cfg _ _ body r w hcfg hbody, hsome]
    · intro teacherEmail teacherName item qty
      rw [requestStock, queryCall_of_body cfg _ _ body r w hcfg hbody, hsome]
    · intro email item status reason
      rw [updateRequestStatus, queryCall_of_body cfg _ _ body r w hcfg hbody, hsome]
    · intro email
      rw [deleteUser, queryCall_of_body cfg _ _ body r w hcfg hbody, hsome]

/-- Witness for C8: `addItem("Pencil", 10)` against a gateway that answers
status 200 with the text `OK`, and `deleteUser` against one that answers with
the JSON value `null`. -/
theorem implicit_success_on_unparseable_body_witness :
    (addItem deployed 5 "Pencil" "10" (.response ⟨200, .ok "OK", none⟩) fresh).1
      = reply true "Barang berjaya ditambah"
    ∧ (deleteUser deployed 5 "a@x.com" (.response ⟨200, .ok "null", some .null⟩) fresh).1
      = .null :=
  ⟨((implicit_success_on_unparseable_body deployed 5 ⟨200, .ok "OK", none⟩ "OK" fresh
      rfl rfl).1 rfl).1 "Pencil" "10",
   ((implicit_success_on_unparseable_body deployed 5 ⟨200, .ok "null", some .null⟩ "null" fresh
      rfl rfl).2 .null rfl).2.2.2.2 "a@x.com"⟩

/-- C9. With the placeholder as endpoint, for all arguments and whatever the
gateway would answer: the four queries return `null`, the eight mutations
return `success = false` with the message `Configuration not set`, and all
twelve leave the world untouched (no gateway call, no access to the Local
Store); `registerUser` and `loginUser` issue no gateway call and leave the
sync queue, the flag and the parked passes as they were. -/
theorem unconfigured_short_circuit (toLowerCase : String → String) (now : Nat)
    (plain : Settled) (raced : Raced) (answer : LoginFetch) (w : World) :
    isConfigured placeholder = false
    ∧ getItems placeholder plain w = (.null, w)
    ∧ getUsers placeholder plain w = (.null, w)
    ∧ getTeacherStockRequests placeholder plain w = (.null, w)
    ∧ (∀ email, getUserByEmail placeholder email raced w = (.null, w))
    ∧ (∀ name stock, addItem placeholder now name stock plain w
        = (reply false "Configuration not set", w))
    ∧ (∀ name stock, updateItem placeholder now name stock plain w
        = (reply false "Configuration not set", w))
    ∧ (∀ teacherEmail teacherName item qty,
        requestStock placeholder now teacherEmail teacherName item qty plain w
          = (reply false "Configuration not set", w))
    ∧ (∀ email item status reason,
        updateRequestStatus placeholder now email item status reason plain w
          = (reply false "Configuration not set", w))
    ∧ (∀ email item date, deleteOrder placeholder email item date plain w
        = (reply false "Configuration not set", w))
    ∧ (∀ name, deleteItem placeholder name plain w = (reply false "Configuration not set", w))
    ∧ (∀ email, deleteUser placeholder now email plain w
        = (reply false "Configuration not set", w))
    ∧ deleteAllOrders placeholder plain w = (reply false "Configuration not set", w)
    ∧ (∀ a : Registration,
        gatewayCalls (registerUser toLowerCase placeholder now a raced w).2.trace
          = gatewayCalls w.trace
        ∧ (registerUser toLowerCase placeholder now a raced w).2.syncQueue = w.syncQueue
        ∧ (registerUser toLowerCase placeholder now a raced w).2.processing = w.processing
        ∧ (registerUser toLowerCase placeholder now a raced w).2.frames = w.frames)
    ∧ (∀ email password,
        gatewayCalls (loginUser toLowerCase placeholder email password answer w).2.trace
          = gatewayCalls w.trace
        ∧ (loginUser toLowerCase placeholder email password answer w).2.syncQueue = w.syncQueue
        ∧ (loginUser toLowerCase placeholder email password answer w).2.processing
          = w.processing
        ∧ (loginUser toLowerCase placeholder email password answer w).2.frames = w.frames) := by
  have hcfg : isConfigured placeholder = false := by decide
  refine ⟨hcfg, ?_, ?_, ?_, ?_, ?_, ?_, ?_, ?_, ?_, ?_, ?_, ?_, ?_, ?_⟩
  · simp [getItems, listing, hcfg]
  · simp [getUsers, listing, hcfg]
  · simp [getTeacherStockRequests, listing, hcfg]
  · intro email
    simp [getUserByEmail, hcfg]
  · intro name stock
    simp [addItem, queryCall, hcfg]
  · intro name stock
    simp [updateItem, queryCall, hcfg]
  · intro teacherEmail teacherName item qty
    simp [requestStock, queryCall, hcfg]
  · intro email item status reason
    simp [updateRequestStatus, queryCall, hcfg]
  · intro email item date
    simp [deleteOrder, opaquePost, hcfg]
  · intro name
    simp [deleteItem, opaquePost, hcfg]
  · intro email
    simp [deleteUser, queryCall, hcfg]
  · simp [deleteAllOrders, opaquePost, hcfg]
  · intro a
    unfold registerUser
    simp only [hcfg]
    cases w.users.read with
    | none => simp [gatewayCalls_append, gatewayCalls]
    | some users =>
      simp only []
      split <;> simp [gatewayCalls_append, gatewayCalls]
  · intro email password
    unfold loginUser
    simp only [hcfg]
    cases w.users.read with
    | none => simp [gatewayCalls_append, gatewayCalls]
    | some users =>
      simp only []
      split <;> simp [gatewayCalls_append, gatewayCalls]

/-- C10, as amended. What the four readers do on a stored value that is not
the text of a list. When the key is absent or holds the empty text, each of
them behaves as on an empty collection. When `syncQueue` holds text on which
`JSON.parse` throws, `processSyncQueue` behaves as on an empty queue (the
queue is read once, nothing is issued or persisted and the flag ends cleared)
and `addToSyncQueue` ends after the read: nothing is thrown at the caller, but
nothing is persisted either and no pass is started. -/
theorem readers_on_unreadable_store (toLowerCase : String → String) (cfg : Config)
    (now : Nat) (a : Registration) (mirror : Raced) (email password : String)
    (answer : LoginFetch) (item : Entry) (w : World) :
    (w.users = .absent ∨ w.users = .blank →
      registerUser toLowerCase cfg now a mirror w
        = registerUser toLowerCase cfg now a mirror { w with users := .records [] }
      ∧ (loginUser toLowerCase cfg email password answer w).1
        = (loginUser toLowerCase cfg email password answer { w with users := .records [] }).1
      ∧ (loginUser toLowerCase cfg email password answer w).2.users.read
        = (loginUser toLowerCase cfg email password answer
            { w with users := .records [] }).2.users.read
      ∧ (loginUser toLowerCase cfg email password answer w).2.trace
        = (loginUser toLowerCase cfg email password answer
            { w with users := .records [] }).2.trace)
    ∧ (w.syncQueue = .absent ∨ w.syncQueue = .blank →
      addToSyncQueue cfg now item w
        = addToSyncQueue cfg now item { w with syncQueue := .records [] })
    ∧ (w.processing = false →
      (w.syncQueue = .absent ∨ w.syncQueue = .blank ∨ w.syncQueue = .records []
        ∨ ∃ text, w.syncQueue = .corrupt text) →
      processSyncQueue cfg w = { w with trace := w.trace ++ [.getItem "syncQueue"] })
    ∧ ((∃ text, w.syncQueue = .corrupt text) →
      addToSyncQueue cfg now item w = { w with trace := w.trace ++ [.getItem "syncQueue"] }) := by
  refine ⟨?_, ?_, ?_, ?_⟩
  · intro h
    have hread : w.users.read = some [] := by
      rcases h with h | h <;> rw [h] <;> rfl
    refine ⟨?_, ?_⟩
    · rw [registerUser_of_new toLowerCase cfg now a mirror w [] hread rfl,
        registerUser_of_new toLowerCase cfg now a mirror { w with users := .records [] } []
          rfl rfl]
    · obtain ⟨users, queue, flag, frames, trace⟩ := w
      simp only at h
      rcases answer with msg | status | ⟨status, ⟨success, message, user⟩⟩
      · by_cases hc : isConfigured cfg = true <;> rcases h with rfl | rfl <;>
          simp [loginUser, Cell.read, hc]
      · by_cases hc : isConfigured cfg = true <;> rcases h with rfl | rfl <;>
          simp [loginUser, Cell.read, hc]
      · by_cases hc : isConfigured cfg = true <;> cases success <;>
          rcases user with _ | ⟨name, mail⟩ <;> rcases h with rfl | rfl <;>
          simp [loginUser, Cell.read, hc]
  · intro h
    have hread : w.syncQueue.read = some [] := by
      rcases h with h | h <;> rw [h] <;> rfl
    unfold addToSyncQueue enqueue
    rw [hread]
    rfl
  · intro hidle h
    unfold processSyncQueue
    rw [if_neg (by simp [hidle])]
    rcases h with h | h | h | ⟨text, h⟩ <;> simp [h, Cell.read, hidle]
  · rintro ⟨text, h⟩
    unfold addToSyncQueue enqueue
    simp [h, Cell.read]

/-- Witness for C10 as amended: the `syncQueue` key holds the text `oops`. -/
theorem readers_on_unreadable_store_witness :
    processSyncQueue deployed ⟨.absent, .corrupt "oops", false, [], []⟩
      = { (⟨.absent, .corrupt "oops", false, [], []⟩ : World) with
          trace := [] ++ [.getItem "syncQueue"] }
    ∧ addToSyncQueue deployed 100 resetEntry ⟨.absent, .corrupt "oops", false, [], []⟩
      = { (⟨.absent, .corrupt "oops", false, [], []⟩ : World) with
          trace := [] ++ [.getItem "syncQueue"] } :=
  ⟨(readers_on_unreadable_store lowerAscii deployed 100
      ⟨"Ana", "a@x.com", "pw1", none, none, none⟩ .aborted "a@x.com" "pw1" (.rejected "offline")
      resetEntry ⟨.absent, .corrupt "oops", false, [], []⟩).2.2.1 rfl
      (Or.inr (Or.inr (Or.inr ⟨"oops", rfl⟩))),
   (readers_on_unreadable_store lowerAscii deployed 100
      ⟨"Ana", "a@x.com", "pw1", none, none, none⟩ .aborted "a@x.com" "pw1" (.rejected "offline")
      resetEntry ⟨.absent, .corrupt "oops", false, [], []⟩).2.2.2 ⟨"oops", rfl⟩⟩

/-- C10 as stated fails. With the text `oops` under `users`, `registerUser` of
a new email and `loginUser` reject with the error of `JSON.parse`, while on an
empty collection the registration succeeds. With `oops` under `syncQueue`,
`addToSyncQueue` leaves that text in place, while on an empty queue it persists
a one-entry queue. -/
theorem readers_on_unreadable_store_counterexample :
    (registerUser lowerAscii deployed 1 ⟨"Ana", "a@x.com", "pw1", none, none, none⟩ .aborted
        ⟨.corrupt "oops", .absent, false, [], []⟩).1 = .threw "SyntaxError"
    ∧ (registerUser lowerAscii deployed 1 ⟨"Ana", "a@x.com", "pw1", none, none, none⟩ .aborted
        ⟨.records [], .absent, false, [], []⟩).1 = .returned (reply true "Pendaftaran berjaya")
    ∧ (loginUser lowerAscii deployed "a@x.com" "pw1" (.rejected "offline")
        ⟨.corrupt "oops", .absent, false, [], []⟩).1 = .threw "SyntaxError"
    ∧ (addToSyncQueue deployed 100 resetEntry
        ⟨.absent, .corrupt "oops", false, [], []⟩).syncQueue = .corrupt "oops"
    ∧ (addToSyncQueue deployed 100 resetEntry
        ⟨.absent, .records [], false, [], []⟩).syncQueue = .records [resetEntry] := by
  refine ⟨rfl, rfl, rfl, rfl, rfl⟩

/-! ## Mirror call of a registration, remote login, enqueue during a pass -/

/-- C11. Registration of an email that the Local Store does not hold yet,
whatever the mirror call does (a response of any status, a body that cannot be
read, a rejected fetch, a timeout): `registerUser` returns `success = true`,
`users` is the previous list with the account `{name, email, password, hint}`
appended, and the sync queue, the flag and the parked passes are as before, so
the mirror call is not queued. -/
theorem registerUser_mirror_best_effort (toLowerCase : String → String) (cfg : Config)
    (now : Nat) (a : Registration) (mirror : Raced) (w : World) (users : List Account)
    (hread : w.users.read = some users)
    (hnew : ∀ u ∈ users, toLowerCase u.email ≠ toLowerCase a.email) :
    (registerUser toLowerCase cfg now a mirror w).1
      = .returned (reply true "Pendaftaran berjaya")
    ∧ (registerUser toLowerCase cfg now a mirror w).2.users
      = .records (users ++ [⟨a.name, a.email, a.password, a.hint⟩])
    ∧ (registerUser toLowerCase cfg now a mirror w).2.syncQueue = w.syncQueue
    ∧ (registerUser toLowerCase cfg now a mirror w).2.processing = w.processing
    ∧ (registerUser toLowerCase cfg now a mirror w).2.frames = w.frames := by
  have hany : users.any (fun u => toLowerCase u.email == toLowerCase a.email) = false := by
    rw [List.any_eq_false]
    intro u hu
    simpa using hnew u hu
  rw [registerUser_of_new toLowerCase cfg now a mirror w users hread hany]
  exact ⟨rfl, rfl, rfl, rfl, rfl⟩

/-- Witness for C11: Ben registers next to Ana while the gateway answers with
status 500 and a body that cannot be read. -/
theorem registerUser_mirror_best_effort_witness :
    (registerUser lowerAscii deployed 3 ⟨"Ben", "b@x.com", "pw9", none, none, some "dog"⟩
        (.first (.response ⟨500, .error "body stream failed", none⟩))
        ⟨.records [⟨"Ana", "a@x.com", "pw1", none⟩], .records [resetEntry], false, [], []⟩).1
      = .returned (reply true "Pendaftaran berjaya")
    ∧ (registerUser lowerAscii deployed 3 ⟨"Ben", "b@x.com", "pw9", none, none, some "dog"⟩
        (.first (.response ⟨500, .error "body stream failed", none⟩))
        ⟨.records [⟨"Ana", "a@x.com", "pw1", none⟩], .records [resetEntry], false, [], []⟩).2.users
      = .records ([⟨"Ana", "a@x.com", "pw1", none⟩] ++ [⟨"Ben", "b@x.com", "pw9", some "dog"⟩])
    ∧ (registerUser lowerAscii deployed 3 ⟨"Ben", "b@x.com", "pw9", none, none, some "dog"⟩
        (.first (.response ⟨500, .error "body stream failed", none⟩))
        ⟨.records [⟨"Ana", "a@x.com", "pw1", none⟩], .records [resetEntry], false, [], []⟩).2.syncQueue
      = .records [resetEntry] :=
  have h := registerUser_mirror_best_effort lowerAscii deployed 3
    ⟨"Ben", "b@x.com", "pw9", none, none, some "dog"⟩
    (.first (.response ⟨500, .error "body stream failed", none⟩))
    ⟨.records [⟨"Ana", "a@x.com", "pw1", none⟩], .records [resetEntry], false, [], []⟩
    [⟨"Ana", "a@x.com", "pw1", none⟩] rfl
    (by
      intro u hu
      rw [List.mem_singleton] at hu
      subst hu
      decide)
  ⟨h.1, h.2.1, h.2.2.1⟩

theorem remains_eq_rebuilt (out : Raced) (e : Entry) :
    remains out e = (rebuilt out e).toList := by
  unfold remains rebuilt
  by_cases h1 : e.action = "resetPassword"
  · simp only [h1, true_or, if_true, ne_eq, not_true_eq_false, false_and, if_false]
    cases fetchWithTimeout out with
    | ok r => rfl
    | error msg =>
      simp only []
      split <;> rfl
  · by_cases h2 : e.action = "register"
    · simp only [h2, or_true, if_true, ne_eq, not_true_eq_false, and_false, if_false]
      cases fetchWithTimeout out with
      | ok r => rfl
      | error msg =>
        simp only []
        split <;> rfl
    · simp [h1, h2]

theorem sweep_eq_filterMap (outcome : Nat → Entry → Raced) (q : List Entry) :
    ∀ base, sweep outcome base q
      = (q.enumFrom base).filterMap fun p => rebuilt (outcome p.1 p.2) p.2 := by
  induction q with
  | nil => intro base; rfl
  | cons e es ih =>
    intro base
    rw [sweep, ih (base + 1), List.enumFrom_cons, List.filterMap_cons, remains_eq_rebuilt]
    cases rebuilt (outcome base e) e <;> rfl

theorem deliveries_eq_attempts (cfg : Config) (l : List Entry) :
    l.filterMap (delivery cfg)
      = ((l.filter fun e => decide (e.action = "resetPassword" ∨ e.action = "register")).map
          (entryRequest cfg)).map Event.fetch := by
  induction l with
  | nil => rfl
  | cons e es ih =>
    by_cases hknown : e.action = "resetPassword" ∨ e.action = "register"
    · simp [List.filterMap_cons, List.filter_cons, delivery, hknown, ih]
    · simp [List.filterMap_cons, List.filter_cons, delivery, hknown, ih]

theorem gatewayCalls_fetches (rs : List Request) : gatewayCalls (rs.map Event.fetch) = rs := by
  induction rs with
  | nil => rfl
  | cons r rs ih =>
    simp only [List.map_cons, gatewayCalls, List.filterMap_cons] at ih ⊢
    rw [ih]

/-- C14. The loop of `processSyncQueue`, with its reverse iteration and
in-place `splice`, is a filter-and-rebuild. For every non-empty persisted queue
`q` and every outcome of every delivery, the pass run to its end persists
`filterAndRebuild outcome q`: the entries of `q` in their original order,
without those that have an unknown action, were delivered, or exceed 3 attempts
after a failed delivery, the others with `attempts` raised by one. The trace of
the pass is one read of the queue, one fetch for each entry with a known action
in reverse insertion order, and one write. -/
theorem drain_pass_is_filter_and_rebuild (cfg : Config) (outcome : Nat → Entry → Raced)
    (w : World) (q : List Entry) (hidle : w.processing = false) (hfr : w.frames = [])
    (hq : w.syncQueue.read = some q) (hne : q ≠ []) :
    (drainPass cfg outcome w).syncQueue = .records (filterAndRebuild outcome q)
    ∧ (drainPass cfg outcome w).trace
      = w.trace ++ [.getItem "syncQueue"] ++ (attemptOrder cfg q).map Event.fetch
        ++ [.setItem "syncQueue"]
    ∧ gatewayCalls (drainPass cfg outcome w).trace = gatewayCalls w.trace ++ attemptOrder cfg q
    ∧ (drainPass cfg outcome w).users = w.users
    ∧ (drainPass cfg outcome w).processing = false
    ∧ (drainPass cfg outcome w).frames = [] := by
  have hlen : ¬ q.length = 0 := by
    intro h
    exact hne (List.length_eq_zero.mp h)
  have hdel : deliveries cfg q = (attemptOrder cfg q).map Event.fetch := by
    unfold deliveries attemptOrder
    exact deliveries_eq_attempts cfg q.reverse
  rw [drainPass_eq cfg outcome w q hidle hfr hq, if_neg hlen, hdel]
  refine ⟨?_, rfl, ?_, rfl, hidle, hfr⟩
  · show Cell.records (sweep outcome 0 q) = Cell.records (filterAndRebuild outcome q)
    rw [sweep_eq_filterMap outcome q 0]
    rfl
  · show gatewayCalls (w.trace ++ [Event.getItem "syncQueue"]
      ++ (attemptOrder cfg q).map Event.fetch ++ [Event.setItem "syncQueue"]) = _
    rw [gatewayCalls_append, gatewayCalls_append, gatewayCalls_append, gatewayCalls_fetches]
    simp [gatewayCalls]

/-- Witness for C14: a queue of three entries, the first answered with status
200, the second timed out, the third of unknown action. -/
theorem drain_pass_is_filter_and_rebuild_witness :
    (drainPass deployed
        (fun i _ => if i = 0 then .first (.response ⟨200, .ok "OK", none⟩) else .aborted)
        (fresh.withQueue [resetEntry, registerEntry, unknownEntry])).syncQueue
      = .records (filterAndRebuild
          (fun i _ => if i = 0 then .first (.response ⟨200, .ok "OK", none⟩) else .aborted)
          [resetEntry, registerEntry, unknownEntry])
    ∧ filterAndRebuild
        (fun i _ => if i = 0 then .first (.response ⟨200, .ok "OK", none⟩) else .aborted)
        [resetEntry, registerEntry, unknownEntry]
      = [{ registerEntry with attempts := some 2 }]
    ∧ gatewayCalls (drainPass deployed
        (fun i _ => if i = 0 then .first (.response ⟨200, .ok "OK", none⟩) else .aborted)
        (fresh.withQueue [resetEntry, registerEntry, unknownEntry])).trace
      = gatewayCalls fresh.trace
        ++ [entryRequest deployed registerEntry, entryRequest deployed resetEntry] :=
  have h := drain_pass_is_filter_and_rebuild deployed
    (fun i _ => if i = 0 then .first (.response ⟨200, .ok "OK", none⟩) else .aborted)
    (fresh.withQueue [resetEntry, registerEntry, unknownEntry])
    [resetEntry, registerEntry, unknownEntry] rfl rfl rfl (by simp)
  ⟨h.1, rfl, h.2.2.1⟩

theorem loginUser_of_local_miss (toLowerCase : String → String) (cfg : Config)
    (email password : String) (remote : LoginFetch) (w : World) (users : List Account)
    (hread : w.users.read = some users)
    (hmiss : users.find? (fun u => toLowerCase u.email == toLowerCase (trim email)
      && u.password == trim password) = none)
    (hcfg : isConfigured cfg = true) :
    loginUser toLowerCase cfg email password remote w
      = match remote with
        | .rejected _ =>
          (.returned invalidCredentials,
            { w with trace := w.trace ++ [.getItem "users",
                .fetch (loginRequest cfg email password)] })
        | .unparseable _ =>
          (.returned invalidCredentials,
            { w with trace := w.trace ++ [.getItem "users",
                .fetch (loginRequest cfg email password)] })
        | .parsed _ answer =>
          if answer.success then
            if users.any (fun u => toLowerCase u.email == toLowerCase (trim email)) then
              (.returned answer.toJson,
                { w with trace := w.trace ++ [.getItem "users",
                    .fetch (loginRequest cfg email password)] })
            else
              match answer.user with
              | none =>
                (.returned invalidCredentials,
                  { w with trace := w.trace ++ [.getItem "users",
                      .fetch (loginRequest cfg email password)] })
              | some (name, mail) =>
                (.returned answer.toJson,
                  { w with
                    users := .records (users ++ [⟨name, mail, password, none⟩])
                    trace := w.trace ++ [.getItem "users",
                      .fetch (loginRequest cfg email password), .setItem "users"] })
          else
            (.returned answer.toJson,
              { w with trace := w.trace ++ [.getItem "users",
                  .fetch (loginRequest cfg email password)] }) := by
  unfold loginUser
  simp only [hread, hmiss, hcfg, if_true]
  rcases remote with msg | status | ⟨status, answer⟩
  · simp
  · simp
  · simp only []
    split
    · split
      · simp
      · rcases answer.user with _ | ⟨name, mail⟩ <;> simp
    · simp

/-- C13, as amended. A login that misses locally with a configured endpoint.
When the mirror answers success with user `U`, `loginUser` returns that answer;
the account `{U.name, U.email, P}` is appended to `users` when the Local Store
holds no account whose email equals the trimmed `E` up to case, and `users` is
left as it was when it holds one (with another password). When the body is
unparseable or the fetch fails, `loginUser` returns the invalid-credentials
failure and `users` is left as it was. -/
theorem loginUser_remote_fallback (toLowerCase : String → String) (cfg : Config)
    (email password : String) (w : World) (users : List Account)
    (hread : w.users.read = some users)
    (hmiss : users.find? (fun u => toLowerCase u.email == toLowerCase (trim email)
      && u.password == trim password) = none)
    (hcfg : isConfigured cfg = true) :
    (∀ status message name mail,
      (loginUser toLowerCase cfg email password
          (.parsed status ⟨true, message, some (name, mail)⟩) w).1
        = .returned (LoginAnswer.toJson ⟨true, message, some (name, mail)⟩)
      ∧ (users.any (fun u => toLowerCase u.email == toLowerCase (trim email)) = false →
          (loginUser toLowerCase cfg email password
              (.parsed status ⟨true, message, some (name, mail)⟩) w).2.users
            = .records (users ++ [⟨name, mail, password, none⟩]))
      ∧ (users.any (fun u => toLowerCase u.email == toLowerCase (trim email)) = true →
          (loginUser toLowerCase cfg email password
              (.parsed status ⟨true, message, some (name, mail)⟩) w).2.users = w.users))
    ∧ (∀ status,
      (loginUser toLowerCase cfg email password (.unparseable status) w).1
        = .returned (reply false "Email atau kata laluan salah")
      ∧ (loginUser toLowerCase cfg email password (.unparseable status) w).2.users = w.users)
    ∧ (∀ message,
      (loginUser toLowerCase cfg email password (.rejected message) w).1
        = .returned (reply false "Email atau kata laluan salah")
      ∧ (loginUser toLowerCase cfg email password (.rejected message) w).2.users = w.users) := by
  refine ⟨?_, ?_, ?_⟩
  · intro status message name mail
    rw [loginUser_of_local_miss toLowerCase cfg email password _ w users hread hmiss hcfg]
    simp only [if_true]
    by_cases hany : users.any (fun u => toLowerCase u.email == toLowerCase (trim email)) = true
    · rw [if_pos hany]
      refine ⟨rfl, ?_, fun _ => rfl⟩
      intro h
      rw [h] at hany
      cases hany
    · rw [if_neg hany]
      exact ⟨rfl, fun _ => rfl, fun h => absurd h hany⟩
  · intro status
    rw [loginUser_of_local_miss toLowerCase cfg email password _ w users hread hmiss hcfg]
    exact ⟨rfl, rfl⟩
  · intro message
    rw [loginUser_of_local_miss toLowerCase cfg email password _ w users hread hmiss hcfg]
    exact ⟨rfl, rfl⟩

/-- Witness for C13 as amended: Ben, unknown to the Local Store that holds
Ana, logs in and the mirror knows him. -/
theorem loginUser_remote_fallback_witness :
    (loginUser lowerAscii deployed "b@x.com" "pw9"
        (.parsed 200 ⟨true, none, some ("Ben", "b@x.com")⟩)
        ⟨.records [⟨"Ana", "a@x.com", "pw1", none⟩], .absent, false, [], []⟩).1
      = .returned (LoginAnswer.toJson ⟨true, none, some ("Ben", "b@x.com")⟩)
    ∧ (loginUser lowerAscii deployed "b@x.com" "pw9"
        (.parsed 200 ⟨true, none, some ("Ben", "b@x.com")⟩)
        ⟨.records [⟨"Ana", "a@x.com", "pw1", none⟩], .absent, false, [], []⟩).2.users
      = .records ([⟨"Ana", "a@x.com", "pw1", none⟩] ++ [⟨"Ben", "b@x.com", "pw9", none⟩]) :=
  have h := (loginUser_remote_fallback lowerAscii deployed "b@x.com" "pw9"
    ⟨.records [⟨"Ana", "a@x.com", "pw1", none⟩], .absent, false, [], []⟩
    [⟨"Ana", "a@x.com", "pw1", none⟩] rfl rfl rfl).1 200 none "Ben" "b@x.com"
  ⟨h.1, h.2.1 (by decide)⟩

/-- C13 as stated fails. The Local Store holds Ana with the password `old`;
she logs in with `new`, which misses locally, and the mirror answers success.
`loginUser` returns the success answer, but since an account with her email is
already stored nothing is cached: `users` still holds only the account with
`old`, and the same login with the gateway unreachable is refused. -/
theorem loginUser_remote_fallback_counterexample :
    (loginUser lowerAscii deployed "a@x.com" "new"
        (.parsed 200 ⟨true, none, some ("Ana", "a@x.com")⟩)
        ⟨.records [⟨"Ana", "a@x.com", "old", none⟩], .absent, false, [], []⟩).1
      = .returned (LoginAnswer.toJson ⟨true, none, some ("Ana", "a@x.com")⟩)
    ∧ (loginUser lowerAscii deployed "a@x.com" "new"
        (.parsed 200 ⟨true, none, some ("Ana", "a@x.com")⟩)
        ⟨.records [⟨"Ana", "a@x.com", "old", none⟩], .absent, false, [], []⟩).2.users
      = .records [⟨"Ana", "a@x.com", "old", none⟩]
    ∧ (loginUser lowerAscii deployed "a@x.com" "new" (.rejected "offline")
        (loginUser lowerAscii deployed "a@x.com" "new"
          (.parsed 200 ⟨true, none, some ("Ana", "a@x.com")⟩)
          ⟨.records [⟨"Ana", "a@x.com", "old", none⟩], .absent, false, [], []⟩).2).1
      = .returned (reply false "Email atau kata laluan salah") := by
  refine ⟨rfl, rfl, rfl⟩

theorem settleAll_parked (cfg : Config) (outcome : Nat → Entry → Raced)
    (pre suf : List Entry) (e : Entry) (w : World) (fuel : Nat)
    (hfuel : pre.length + 1 ≤ fuel)
    (hfr : w.frames = [⟨pre ++ [e] ++ suf, pre.length, e⟩]) :
    settleAll cfg outcome fuel w
      = { w with
          syncQueue := .records (sweep outcome 0 pre ++
            (match fetchWithTimeout (outcome pre.length e) with
              | .ok _ => []
              | .error _ =>
                if 3 < e.attempts.getD 0 + 1 then []
                else [{ e with attempts := some (e.attempts.getD 0 + 1) }]) ++ suf)
          processing := false
          frames := []
          trace := w.trace ++ deliveries cfg pre ++ [.setItem "syncQueue"] } := by
  obtain ⟨fuel, rfl⟩ : ∃ k, fuel = k + 1 := ⟨fuel - 1, by omega⟩
  have hfuel2 : pre.length ≤ fuel := by omega
  have herase : (pre ++ [e] ++ suf).eraseIdx pre.length = pre ++ suf := by
    simp [List.eraseIdx_append_of_length_le]
  have hset : ∀ x : Entry, (pre ++ [e] ++ suf).set pre.length x = pre ++ (x :: suf) := by
    intro x
    simp
  rw [settleAll]
  simp only [hfr]
  rw [settle]
  simp only [hfr]
  cases hout : fetchWithTimeout (outcome pre.length e) with
  | ok r =>
    simp only [herase]
    rw [settleAll_drainFrom cfg outcome pre suf _ fuel hfuel2 rfl]
    simp
  | error msg =>
    simp only [herase, hset]
    by_cases h3 : 3 < e.attempts.getD 0 + 1
    · simp only [h3, if_true]
      rw [settleAll_drainFrom cfg outcome pre suf _ fuel hfuel2 rfl]
      simp
    · simp only [h3, if_false]
      rw [settleAll_drainFrom cfg outcome pre _ _ fuel hfuel2 rfl]
      simp

theorem processSyncQueue_parks (cfg : Config) (w : World) (pre : List Entry) (e : Entry)
    (hidle : w.processing = false)
    (hq : w.syncQueue.read = some (pre ++ [e]))
    (hknown : e.action = "resetPassword" ∨ e.action = "register") :
    processSyncQueue cfg w
      = { w with
          processing := true
          frames := w.frames ++ [⟨pre ++ [e], pre.length, e⟩]
          trace := w.trace ++ [.getItem "syncQueue", .fetch (entryRequest cfg e)] } := by
  have hget : (pre ++ [e])[pre.length]? = some e := by
    rw [List.getElem?_append_right (le_refl _)]
    simp
  unfold processSyncQueue
  rw [if_neg (by simp [hidle])]
  simp only [hq, List.length_append, List.length_singleton, Nat.add_one_ne_zero, if_false]
  rw [drainFrom, hget]
  simp only []
  by_cases h1 : e.action = "resetPassword"
  · rw [if_pos h1]
    simp [entryRequest, h1]
  · have h2 : e.action = "register" := hknown.resolve_left h1
    rw [if_neg h1, if_pos h2]
    simp [entryRequest, h1]

/-- An enqueue during an active pass, in general. A pass starts on the queue
`pre ++ [e]` and awaits the delivery of `e`; meanwhile
`addToSyncQueue` persists that queue with a new entry at its end; then the pass
runs to its end. The pass persists what it leaves of the queue it had read, and
the entry added in between is overwritten. -/
theorem parked_pass_overwrites_enqueue (cfg : Config) (outcome : Nat → Entry → Raced)
    (now : Nat) (item : Entry) (w : World) (pre : List Entry) (e : Entry)
    (hidle : w.processing = false) (hfr : w.frames = [])
    (hq : w.syncQueue.read = some (pre ++ [e]))
    (hknown : e.action = "resetPassword" ∨ e.action = "register") :
    (addToSyncQueue cfg now item (processSyncQueue cfg w)).syncQueue
      = .records (pre ++ [e] ++ [withDefaults now item])
    ∧ (settleAll cfg outcome (pre.length + 1)
        (addToSyncQueue cfg now item (processSyncQueue cfg w))).syncQueue
      = .records (sweep outcome 0 (pre ++ [e]))
    ∧ (settleAll cfg outcome (pre.length + 1)
        (addToSyncQueue cfg now item (processSyncQueue cfg w))).processing = false
    ∧ (settleAll cfg outcome (pre.length + 1)
        (addToSyncQueue cfg now item (processSyncQueue cfg w))).frames = [] := by
  have hpark := processSyncQueue_parks cfg w pre e hidle hq hknown
  have hadd : addToSyncQueue cfg now item (processSyncQueue cfg w)
      = { w with
          syncQueue := .records (pre ++ [e] ++ [withDefaults now item])
          processing := true
          frames := [⟨pre ++ [e], pre.length, e⟩]
          trace := w.trace ++ [.getItem "syncQueue", .fetch (entryRequest cfg e),
            .getItem "syncQueue", .setItem "syncQueue"] } := by
    rw [hpark]
    unfold addToSyncQueue enqueue
    simp only [hq]
    unfold processSyncQueue
    simp [hfr]
  have hrun := settleAll_parked cfg outcome pre [] e
    (addToSyncQueue cfg now item (processSyncQueue cfg w)) (pre.length + 1) (le_refl _)
    (by rw [hadd]; simp)
  have hsweep : sweep outcome 0 (pre ++ [e])
      = sweep outcome 0 pre ++
        (match fetchWithTimeout (outcome pre.length e) with
          | .ok _ => []
          | .error _ =>
            if 3 < e.attempts.getD 0 + 1 then []
            else [{ e with attempts := some (e.attempts.getD 0 + 1) }]) ++ [] := by
    rw [sweep_append, List.append_nil]
    simp [sweep, remains, hknown]
  refine ⟨by rw [hadd], ?_, by rw [hrun], by rw [hrun]⟩
  rw [hrun, hsweep]

/-- C12, the code at the failing input. The persisted queue holds one
`resetPassword` entry; `processSyncQueue` reads it and awaits the fetch. While
the pass is parked, `addToSyncQueue` is called at time 100 with a second
`resetPassword` item and persists both entries. Then the fetch of the pass
returns: the pass persists its own array, now empty, the flag is cleared and
nothing is parked. The second entry is gone although the only request ever
issued is the one for the first entry, and a later pass finds an empty queue
and issues nothing. -/
theorem enqueue_during_drain_is_lost :
    (processSyncQueue deployed (fresh.withQueue [resetEntry])).frames
      = [⟨[resetEntry], 0, resetEntry⟩]
    ∧ (addToSyncQueue deployed 100
        ⟨"resetPassword", some "b@x.com", some "pw3", none, none, none⟩
        (processSyncQueue deployed (fresh.withQueue [resetEntry]))).syncQueue
      = .records [resetEntry,
          ⟨"resetPassword", some "b@x.com", some "pw3", none, some 0, some 100⟩]
    ∧ (settle deployed (.first (.response ⟨200, .ok "OK", none⟩))
        (addToSyncQueue deployed 100
          ⟨"resetPassword", some "b@x.com", some "pw3", none, none, none⟩
          (processSyncQueue deployed (fresh.withQueue [resetEntry])))).syncQueue
      = .records []
    ∧ (settle deployed (.first (.response ⟨200, .ok "OK", none⟩))
        (addToSyncQueue deployed 100
          ⟨"resetPassword", some "b@x.com", some "pw3", none, none, none⟩
          (processSyncQueue deployed (fresh.withQueue [resetEntry])))).processing = false
    ∧ (settle deployed (.first (.response ⟨200, .ok "OK", none⟩))
        (addToSyncQueue deployed 100
          ⟨"resetPassword", some "b@x.com", some "pw3", none, none, none⟩
          (processSyncQueue deployed (fresh.withQueue [resetEntry])))).frames = []
    ∧ gatewayCalls (drainPass deployed (fun _ _ => .first (.response ⟨200, .ok "OK", none⟩))
        (settle deployed (.first (.response ⟨200, .ok "OK", none⟩))
          (addToSyncQueue deployed 100
            ⟨"resetPassword", some "b@x.com", some "pw3", none, none, none⟩
            (processSyncQueue deployed (fresh.withQueue [resetEntry]))))).trace
      = [entryRequest deployed resetEntry] := by
  refine ⟨rfl, rfl, rfl, rfl, rfl, rfl⟩

end PPD
